import Mathlib

/-! The radix tree facade (`radix/tree.go`) and the client read path (`client/client.go`).

A shallow embedding of the `Tree` type of `radix/tree.go` and of `Conn.Get` of
`client/client.go`.

* `*Tree` pointers are addresses into an explicit heap, so that the in-place mutation of a
  sub-tree that the outer tree still points to is visible exactly as in the Go program.
* The node layer (`node.go`), the nibble codec and the `persistence` package are not among the
  sources.  The `Tree` methods are written over an arbitrary `NodeLayer`; one concrete layer,
  modelled from the specification, is provided for evaluating the methods on examples.
* The state does not carry the mutex of a tree: every method is run to completion, one at a
  time.  The lock and unlock steps of the mutators are listed in a section of their own.
-/

namespace Radix

/-! ## Basic types -/

/-- A nibble, the 4-bit digit keys are made of. -/
abbrev Nibble := Nat

/-- A Go byte slice; `none` is the nil slice. -/
abbrev Bytes := Option (List Nat)

/-- A non-nil `*Tree`: the address of a tree object on the heap. -/
abbrev Ptr := Nat

/-- Modelled from the spec: the constant byteValue of the use mask is declared in the absent
node layer; bit 0 of the two-bit tag stands for the byte value. -/
def byteValue : Nat := 1

/-- Modelled from the spec: the constant treeValue of the use mask is declared in the absent
node layer; bit 1 of the two-bit tag stands for the sub-tree. -/
def treeValue : Nat := 2

/-- Nibbles of a list of bytes, high nibble first. -/
def ripList : List Nat → List Nibble
  | [] => []
  | b :: bs => (b / 16) % 16 :: b % 16 :: ripList bs

/-- Modelled from the spec: the nibble codec is absent from the sources; rip splits a key into
its 4-bit nibbles, high nibble first. -/
def rip : Bytes → List Nibble
  | none => []
  | some bs => ripList bs

/-- Bytes of a list of nibbles, two nibbles per byte. -/
def stitchList : List Nibble → List Nat
  | hi :: lo :: rest => (hi * 16 + lo) % 256 :: stitchList rest
  | _ => []

/-- Modelled from the spec: the nibble codec is absent from the sources; stitch reassembles
the bytes of a nibble sequence. -/
def stitch (key : List Nibble) : Bytes := some (stitchList key)

/-! ## The operation log (`persistence`) -/

/-- Modelled from the spec: persistence.Op is declared in the absent persistence package; the
fields are the ones tree.go reads and writes. -/
structure Op where
  Key : Bytes := none
  SubKey : Bytes := none
  Value : Bytes := none
  Timestamp : Int := 0
  Put : Bool := false
  Clear : Bool := false
deriving DecidableEq, Repr

/-- Modelled from the spec: persistence.Logger is absent from the sources; an append-only
sequence of records together with the recording state. -/
structure Logger where
  recording : Bool
  ops : List Op
deriving DecidableEq, Repr

/-- Modelled from the spec: Logger.Record enters the recording state. -/
def Logger.Record (lg : Logger) : Logger := { lg with recording := true }

/-- Modelled from the spec: Logger.Stop leaves the recording state. -/
def Logger.Stop (lg : Logger) : Logger := { lg with recording := false }

/-- Modelled from the spec: Logger.Recording reports the recording state. -/
def Logger.Recording (lg : Logger) : Bool := lg.recording

/-- Modelled from the spec: Logger.Dump appends one record. -/
def Logger.Dump (lg : Logger) (op : Op) : Logger := { lg with ops := lg.ops ++ [op] }

/-- Modelled from the spec: Logger.Clear starts a fresh segment; the existing records become
historical and are not deleted. -/
def Logger.Clear (lg : Logger) : Logger := lg

/-- Modelled from the spec: Logger.Play hands every record, in written order, to the
callback, which transforms the state `σ`. -/
def Logger.Play {σ : Type} (lg : Logger) (f : σ → Op → σ) (s : σ) : σ := lg.ops.foldl f s

/-! ## Trees on a heap -/

/-- The fields of a Tree object other than its lock and timer. -/
structure Tree (N : Type) where
  logger : Option Logger
  root : N

/-- The program state: the heap of tree objects, the next free address, and the timer shared
by all trees (`clock k` is the k-th reading of ContinuousTime, `ticks` readings were taken). -/
structure World (N : Type) where
  heap : Ptr → Tree N
  next : Ptr
  clock : Nat → Int
  ticks : Nat

/-- The five results of the node mutators insert, insertHelp, del and fakeDel. -/
structure NodeRes (N : Type) where
  result : N
  oldBytes : Bytes
  oldTree : Option Ptr
  oldTimestamp : Int
  existed : Nat

/-- The four results of the node lookup get. -/
structure GetRes where
  bytes : Bytes
  tree : Option Ptr
  timestamp : Int
  existed : Nat
deriving DecidableEq, Repr

/-- The node layer that tree.go calls into.  `N` is the type of `*node` values; the heap is
passed to the mutators because a node digests the sub-trees it points to. -/
structure NodeLayer (N : Type) where
  nilNode : N
  newNode : List Nibble → Bytes → Option Ptr → Int → Bool → Nat → N
  insert : (Ptr → Tree N) → N → List Nibble → N → Int → NodeRes N
  insertHelp : (Ptr → Tree N) → N → List Nibble → N → Nat → Int → NodeRes N
  get : N → List Nibble → GetRes
  del : (Ptr → Tree N) → N → List Nibble → List Nibble → Nat → Int → NodeRes N
  fakeDel : (Ptr → Tree N) → N → List Nibble → List Nibble → Nat → Int → Int → NodeRes N
  fakeClear : (Ptr → Tree N) → N → List Nibble → Nat → Int → Int → N × Int
  hash : N → Bytes
  realSize : N → Int
  byteSize : N → Int
  treeSize : N → Int

section TreeOps

variable {N : Type}

/-- The reading that the next call of timer.ContinuousTime returns. -/
def World.ContinuousTime (w : World N) : Int := w.clock w.ticks

/-- The state after one reading of the timer. -/
def World.tick (w : World N) : World N := { w with ticks := w.ticks + 1 }

/-- Assignment to the field `root` of the tree at `self`. -/
def World.setRoot (w : World N) (self : Ptr) (r : N) : World N :=
  { w with heap := Function.update w.heap self { w.heap self with root := r } }

/-- Assignment to the field `logger` of the tree at `self`. -/
def World.setLogger (w : World N) (self : Ptr) (lg : Option Logger) : World N :=
  { w with heap := Function.update w.heap self { w.heap self with logger := lg } }

/-- Result of a mutator that reports the displaced bytes and an `existed` flag. -/
structure Old (N : Type) where
  world : World N
  oldBytes : Bytes
  existed : Bool

/-- Result of a timestamp-conditional mutator. -/
structure Cond (N : Type) where
  world : World N
  result : Bool

/-- NewTreeTimer: allocate a tree and insert the empty root node into its nil root. -/
def NewTreeTimer (L : NodeLayer N) (w : World N) : World N × Ptr :=
  let p := w.next
  let w0 : World N :=
    { w with heap := Function.update w.heap p { logger := none, root := L.nilNode },
             next := w.next + 1 }
  let r := L.insert w0.heap (w0.heap p).root [] (L.newNode [] none none 0 true 0)
    w0.ContinuousTime
  (w0.tick.setRoot p r.result, p)

/-- Tree.Log: attach a logger holding the records found in the directory and record. -/
def Tree.Log (w : World N) (self : Ptr) (found : List Op) : World N :=
  w.setLogger self (some (Logger.Record { recording := false, ops := found }))

/-- Tree.log: dump the record if a logger is attached and recording. -/
def Tree.log (w : World N) (self : Ptr) (op : Op) : World N :=
  match (w.heap self).logger with
  | none => w
  | some lg => if lg.Recording then w.setLogger self (some (lg.Dump op)) else w

/-- Tree.putTimestamp. -/
def Tree.putTimestamp (L : NodeLayer N) (w : World N) (self : Ptr) (key : List Nibble)
    (bValue : Bytes) (tValue : Option Ptr) (nodeUse insertUse : Nat)
    (expected timestamp : Int) : Cond N :=
  let current := (L.get (w.heap self).root key).timestamp
  if current = expected then
    let r := L.insertHelp w.heap (w.heap self).root []
      (L.newNode key bValue tValue timestamp false nodeUse) insertUse w.ContinuousTime
    { world := w.tick.setRoot self r.result, result := true }
  else
    { world := w, result := false }

/-- Tree.PutTimestamp. -/
def Tree.PutTimestamp (L : NodeLayer N) (w : World N) (self : Ptr) (key : List Nibble)
    (bValue : Bytes) (present : Bool) (expected timestamp : Int) : Cond N :=
  let nodeUse := if present then byteValue else 0
  let r := Tree.putTimestamp L w self key bValue none nodeUse byteValue expected timestamp
  if r.result then
    { world := Tree.log r.world self
        { Key := stitch key, Value := bValue, Timestamp := timestamp, Put := true },
      result := true }
  else r

/-- Tree.delTimestamp. -/
def Tree.delTimestamp (L : NodeLayer N) (w : World N) (self : Ptr) (key : List Nibble)
    (use : Nat) (expected : Int) : Cond N :=
  let current := (L.get (w.heap self).root key).timestamp
  if current = expected then
    let r := L.del w.heap (w.heap self).root [] key use w.ContinuousTime
    { world := w.tick.setRoot self r.result, result := true }
  else
    { world := w, result := false }

/-- Tree.DelTimestamp. -/
def Tree.DelTimestamp (L : NodeLayer N) (w : World N) (self : Ptr) (key : List Nibble)
    (expected : Int) : Cond N :=
  let r := Tree.delTimestamp L w self key byteValue expected
  if r.result then
    { world := Tree.log r.world self { Key := stitch key }, result := true }
  else r

/-- Results of Tree.put: the displaced values and the mask of the slots that existed. -/
structure PutRes (N : Type) where
  world : World N
  oldBytes : Bytes
  oldTree : Option Ptr
  existed : Nat

/-- Results of Tree.FakeDel. -/
structure FakeDelRes (N : Type) where
  world : World N
  oldBytes : Bytes
  oldTree : Option Ptr
  existed : Bool

/-- Results of Tree.Get and Tree.GetTimestamp. -/
structure Got where
  bValue : Bytes
  timestamp : Int
  existed : Bool
deriving DecidableEq, Repr

/-- Tree.Hash, on a non-nil receiver. -/
def Tree.Hash (L : NodeLayer N) (w : World N) (self : Ptr) : Bytes :=
  L.hash (w.heap self).root

/-- Tree.RealSize, on a non-nil receiver. -/
def Tree.RealSize (L : NodeLayer N) (w : World N) (self : Ptr) : Int :=
  L.realSize (w.heap self).root

/-- Tree.Size, on a non-nil receiver. -/
def Tree.Size (L : NodeLayer N) (w : World N) (self : Ptr) : Int :=
  L.byteSize (w.heap self).root + L.treeSize (w.heap self).root

/-- Tree.FakeDel. -/
def Tree.FakeDel (L : NodeLayer N) (w : World N) (self : Ptr) (key : Bytes)
    (timestamp : Int) : FakeDelRes N :=
  let r := L.fakeDel w.heap (w.heap self).root [] (rip key) byteValue timestamp
    w.ContinuousTime
  let w1 := w.tick.setRoot self r.result
  let existed : Bool := r.existed &&& byteValue != 0
  { world := if existed then Tree.log w1 self { Key := key } else w1,
    oldBytes := r.oldBytes, oldTree := r.oldTree, existed := existed }

/-- Tree.put. -/
def Tree.put (L : NodeLayer N) (w : World N) (self : Ptr) (key : List Nibble)
    (bValue : Bytes) (tValue : Option Ptr) (use : Nat) (timestamp : Int) : PutRes N :=
  let r := L.insert w.heap (w.heap self).root []
    (L.newNode key bValue tValue timestamp false use) w.ContinuousTime
  { world := w.tick.setRoot self r.result, oldBytes := r.oldBytes, oldTree := r.oldTree,
    existed := r.existed }

/-- Tree.Put. -/
def Tree.Put (L : NodeLayer N) (w : World N) (self : Ptr) (key bValue : Bytes)
    (timestamp : Int) : Old N :=
  let r := Tree.put L w self (rip key) bValue none byteValue timestamp
  let existed : Bool := r.existed * byteValue != 0
  { world := Tree.log r.world self
      { Key := key, Value := bValue, Timestamp := timestamp, Put := true },
    oldBytes := r.oldBytes, existed := existed }

/-- Tree.Get. -/
def Tree.Get (L : NodeLayer N) (w : World N) (self : Ptr) (key : Bytes) : Got :=
  let g := L.get (w.heap self).root (rip key)
  { bValue := g.bytes, timestamp := g.timestamp, existed := g.existed &&& byteValue != 0 }

/-- Tree.Clear; the count of removed values is the second component. -/
def Tree.Clear (L : NodeLayer N) (w : World N) (self : Ptr) (timestamp : Int) :
    World N × Int :=
  let r := L.fakeClear w.heap (w.heap self).root [] byteValue timestamp w.ContinuousTime
  let w1 := w.tick.setRoot self r.1
  match (w1.heap self).logger with
  | none => (w1, r.2)
  | some lg => (w1.setLogger self (some lg.Clear), r.2)

/-- Tree.del. -/
def Tree.del (L : NodeLayer N) (w : World N) (self : Ptr) (key : List Nibble) : Old N :=
  let r := L.del w.heap (w.heap self).root [] key byteValue w.ContinuousTime
  { world := w.tick.setRoot self r.result, oldBytes := r.oldBytes,
    existed := r.existed &&& byteValue != 0 }

/-- Tree.Del. -/
def Tree.Del (L : NodeLayer N) (w : World N) (self : Ptr) (key : Bytes) : Old N :=
  let r := Tree.del L w self (rip key)
  if r.existed then { r with world := Tree.log r.world self { Key := key } } else r

/-- Tree.newTreeWith; the receiver only supplies the timer, which all trees share. -/
def Tree.newTreeWith (L : NodeLayer N) (w : World N) (key : List Nibble) (bValue : Bytes)
    (timestamp : Int) : World N × Ptr :=
  let n := NewTreeTimer L w
  ((Tree.PutTimestamp L n.1 n.2 key bValue true 0 timestamp).world, n.2)

/-- Tree.GetTimestamp. -/
def Tree.GetTimestamp (L : NodeLayer N) (w : World N) (self : Ptr) (key : List Nibble) :
    Got :=
  let g := L.get (w.heap self).root key
  { bValue := g.bytes, timestamp := g.timestamp, existed := g.existed &&& byteValue != 0 }

/-- Tree.SubPut.  The test `ex&treeValue == 0 || subTree == nil` selects the first and the
second arm below, the third is its else branch. -/
def Tree.SubPut (L : NodeLayer N) (w : World N) (self : Ptr) (key subKey bValue : Bytes)
    (timestamp : Int) : Old N :=
  let ripped := rip key
  let g := L.get (w.heap self).root ripped
  let subTreeTimestamp := g.timestamp
  let fresh : Old N × Ptr :=
    let n := Tree.newTreeWith L w (rip subKey) bValue timestamp
    ({ world := n.1, oldBytes := none, existed := false }, n.2)
  let br : Old N × Ptr :=
    match g.tree with
    | none => fresh
    | some subTree =>
      if g.existed &&& treeValue = 0 then fresh
      else (Tree.Put L w subTree subKey bValue timestamp, subTree)
  let w2 := (Tree.put L br.1.world self ripped none (some br.2) treeValue
    subTreeTimestamp).world
  { world := Tree.log w2 self
      { Key := key, SubKey := subKey, Value := bValue, Timestamp := timestamp, Put := true },
    oldBytes := br.1.oldBytes, existed := br.1.existed }

/-- Tree.SubDel.  The body of `if ex&treeValue != 0 && subTree != nil` is the inner
then-branch; in the other two arms nothing happens before the log test. -/
def Tree.SubDel (L : NodeLayer N) (w : World N) (self : Ptr) (key subKey : Bytes) : Old N :=
  let ripped := rip key
  let g := L.get (w.heap self).root ripped
  let r : Old N :=
    match g.tree with
    | none => { world := w, oldBytes := none, existed := false }
    | some subTree =>
      if g.existed &&& treeValue ≠ 0 then
        let d := Tree.Del L w subTree subKey
        if Tree.RealSize L d.world subTree = 0 then
          { d with world := (Tree.del L d.world self ripped).world }
        else
          { d with world := (Tree.put L d.world self ripped none (some subTree) treeValue
              g.timestamp).world }
      else { world := w, oldBytes := none, existed := false }
  if r.existed then { r with world := Tree.log r.world self { Key := key, SubKey := subKey } }
  else r

/-- Tree.SubFakeDel. -/
def Tree.SubFakeDel (L : NodeLayer N) (w : World N) (self : Ptr) (key subKey : Bytes)
    (timestamp : Int) : Old N :=
  let ripped := rip key
  let g := L.get (w.heap self).root ripped
  let r : Old N :=
    match g.tree with
    | none => { world := w, oldBytes := none, existed := false }
    | some subTree =>
      if g.existed &&& treeValue ≠ 0 then
        let d := Tree.FakeDel L w subTree subKey timestamp
        { world := (Tree.put L d.world self ripped none (some subTree) treeValue
            g.timestamp).world,
          oldBytes := d.oldBytes, existed := d.existed }
      else { world := w, oldBytes := none, existed := false }
  if r.existed then { r with world := Tree.log r.world self { Key := key, SubKey := subKey } }
  else r

/-- Tree.SubClear; the count of removed values is the second component. -/
def Tree.SubClear (L : NodeLayer N) (w : World N) (self : Ptr) (key : Bytes)
    (timestamp : Int) : World N × Int :=
  let ripped := rip key
  let g := L.get (w.heap self).root ripped
  let r : World N × Int :=
    match g.tree with
    | none => (w, 0)
    | some subTree =>
      if g.existed &&& treeValue ≠ 0 then
        let c := Tree.Clear L w subTree timestamp
        ((Tree.put L c.1 self ripped none (some subTree) treeValue g.timestamp).world, c.2)
      else (w, 0)
  if r.2 > 0 then (Tree.log r.1 self { Key := key, Clear := true }, r.2) else r

/-- Tree.SubPutTimestamp. -/
def Tree.SubPutTimestamp (L : NodeLayer N) (w : World N) (self : Ptr)
    (key subKey : List Nibble) (bValue : Bytes) (present : Bool)
    (subExpected subTimestamp : Int) : Cond N :=
  let g := L.get (w.heap self).root key
  let subTreeTimestamp := g.timestamp
  let br : Cond N × Ptr :=
    match g.tree with
    | none =>
      let n := Tree.newTreeWith L w subKey bValue subTimestamp
      ({ world := n.1, result := true }, n.2)
    | some subTree =>
      (Tree.PutTimestamp L w subTree subKey bValue present subExpected subTimestamp, subTree)
  let w2 := (Tree.putTimestamp L br.1.world self key none (some br.2) treeValue treeValue
    subTreeTimestamp subTreeTimestamp).world
  if br.1.result then
    { world := Tree.log w2 self
        { Key := stitch key, SubKey := stitch subKey, Value := bValue,
          Timestamp := subTimestamp, Put := true },
      result := true }
  else { world := w2, result := false }

/-- Tree.SubDelTimestamp. -/
def Tree.SubDelTimestamp (L : NodeLayer N) (w : World N) (self : Ptr)
    (key subKey : List Nibble) (subExpected : Int) : Cond N :=
  let g := L.get (w.heap self).root key
  let r : Cond N :=
    match g.tree with
    | none => { world := w, result := false }
    | some subTree =>
      if g.existed &&& treeValue ≠ 0 then
        let d := Tree.DelTimestamp L w subTree subKey subExpected
        if Tree.Size L d.world subTree = 0 then
          { d with world := (Tree.delTimestamp L d.world self key treeValue
              g.timestamp).world }
        else
          { d with world := (Tree.putTimestamp L d.world self key none (some subTree)
              treeValue treeValue g.timestamp g.timestamp).world }
      else { world := w, result := false }
  if r.result then
    { r with world := Tree.log r.world self { Key := stitch key, SubKey := stitch subKey } }
  else r

/-- The callback that Tree.Restore hands to Logger.Play. -/
def Tree.restoreOp (L : NodeLayer N) (self : Ptr) (w : World N) (op : Op) : World N :=
  if op.Put then
    if op.SubKey = none then (Tree.Put L w self op.Key op.Value op.Timestamp).world
    else (Tree.SubPut L w self op.Key op.SubKey op.Value op.Timestamp).world
  else
    if op.SubKey = none then
      if op.Clear then
        let r := L.del w.heap (w.heap self).root [] (rip op.Key) treeValue w.ContinuousTime
        w.tick.setRoot self r.result
      else (Tree.Del L w self op.Key).world
    else (Tree.SubDel L w self op.Key op.SubKey).world

/-- Tree.Restore; `none` is the nil dereference of a tree without a logger. -/
def Tree.Restore (L : NodeLayer N) (w : World N) (self : Ptr) : Option (World N) :=
  match (w.heap self).logger with
  | none => none
  | some lg =>
    let w1 := w.setLogger self (some lg.Stop)
    let w2 := lg.Play (Tree.restoreOp L self) w1
    some (w2.setLogger self ((w2.heap self).logger.map Logger.Record))

end TreeOps

/-- The outer root after `self.put(key, nil, subTree, treeValue, timestamp)` in the state `w`:
the result of the node insert of a node that carries only the sub-tree reference. -/
def outerInsert {N : Type} (L : NodeLayer N) (w : World N) (self : Ptr) (key : List Nibble)
    (subTree : Ptr) (timestamp : Int) : N :=
  (L.insert w.heap (w.heap self).root []
    (L.newNode key none (some subTree) timestamp false treeValue) w.ContinuousTime).result

/-! ## Sequences of mutations and their replay -/

/-- A call of one of the public mutators of a tree, with its arguments. -/
inductive Mutation where
  | Put (key bValue : Bytes) (timestamp : Int)
  | Del (key : Bytes)
  | FakeDel (key : Bytes) (timestamp : Int)
  | SubPut (key subKey bValue : Bytes) (timestamp : Int)
  | SubDel (key subKey : Bytes)
  | SubFakeDel (key subKey : Bytes) (timestamp : Int)
  | SubClear (key : Bytes) (timestamp : Int)
  | PutTimestamp (key : List Nibble) (bValue : Bytes) (present : Bool)
      (expected timestamp : Int)
  | DelTimestamp (key : List Nibble) (expected : Int)
  | SubPutTimestamp (key subKey : List Nibble) (bValue : Bytes) (present : Bool)
      (subExpected subTimestamp : Int)
  | SubDelTimestamp (key subKey : List Nibble) (subExpected : Int)
deriving DecidableEq, Repr

/-- The state after the call `m` on the tree at `self`. -/
def Mutation.run {N : Type} (L : NodeLayer N) (self : Ptr) (w : World N) :
    Mutation → World N
  | .Put key bValue timestamp => (Tree.Put L w self key bValue timestamp).world
  | .Del key => (Tree.Del L w self key).world
  | .FakeDel key timestamp => (Tree.FakeDel L w self key timestamp).world
  | .SubPut key subKey bValue timestamp =>
    (Tree.SubPut L w self key subKey bValue timestamp).world
  | .SubDel key subKey => (Tree.SubDel L w self key subKey).world
  | .SubFakeDel key subKey timestamp => (Tree.SubFakeDel L w self key subKey timestamp).world
  | .SubClear key timestamp => (Tree.SubClear L w self key timestamp).1
  | .PutTimestamp key bValue present expected timestamp =>
    (Tree.PutTimestamp L w self key bValue present expected timestamp).world
  | .DelTimestamp key expected => (Tree.DelTimestamp L w self key expected).world
  | .SubPutTimestamp key subKey bValue present subExpected subTimestamp =>
    (Tree.SubPutTimestamp L w self key subKey bValue present subExpected subTimestamp).world
  | .SubDelTimestamp key subKey subExpected =>
    (Tree.SubDelTimestamp L w self key subKey subExpected).world

/-- The state after the calls of `S`, in order, on the tree at `self`. -/
def runAll {N : Type} (L : NodeLayer N) (self : Ptr) (w : World N) (S : List Mutation) :
    World N :=
  S.foldl (Mutation.run L self) w

/-- The records that the logger of the tree at `self` holds. -/
def recorded {N : Type} (w : World N) (self : Ptr) : List Op :=
  match (w.heap self).logger with
  | none => []
  | some lg => lg.ops

/-- The records emitted when `S` is applied to the tree at `self` of `w` with a recording
logger attached that starts without records. -/
def emitted {N : Type} (L : NodeLayer N) (self : Ptr) (w : World N) (S : List Mutation) :
    List Op :=
  recorded (runAll L self (Tree.Log w self []) S) self

/-- Replay of the records `ops` into the tree at `self` of `w`: the logger finds them in its
directory and Restore plays them. -/
def replay {N : Type} (L : NodeLayer N) (self : Ptr) (w : World N) (ops : List Op) :
    Option (World N) :=
  Tree.Restore L (Tree.Log w self ops) self

/-! ## A concrete node layer

The node layer is absent from the sources.  The layer below follows the specification: a key
holds a byte slot and a sub-tree slot, each with its own timestamp; a write to a populated slot
wins iff its timestamp is strictly greater; `del` removes slots physically, `fakeDel` and
`fakeClear` leave tombstones.  The trie spine is represented by the key-ordered list of the keys
it holds (lookup and iteration order of a trie are those of that list), and the hash is the
structural encoding itself, so that it is free of collisions. -/

namespace Model

/-- Bit 0 of a use mask: the byte value. -/
def hasByte (m : Nat) : Bool := m % 2 == 1

/-- Bit 1 of a use mask: the sub-tree. -/
def hasTree (m : Nat) : Bool := m / 2 % 2 == 1

/-- The use mask with the given two bits. -/
def mask (b t : Bool) : Nat := (if b then 1 else 0) + (if t then 2 else 0)

/-- Modelled from the spec: the node struct is absent from the sources; the payload of one key:
the two value slots with their timestamps, the timestamp of the last write that won (the one
get reports), the slots that exist (`held`, tombstones included) and the slots that are live
(`use`). -/
structure Cell where
  key : List Nibble
  byteValue : Bytes
  byteTimestamp : Int
  treeValue : Option Ptr
  treeTimestamp : Int
  timestamp : Int
  held : Nat
  use : Nat
deriving DecidableEq, Repr

/-- Modelled from the spec: the node struct is absent from the sources; a `*node` is nil or the
root of a trie, given by the cells of its keys in key order and its cached hash. -/
structure node where
  isNil : Bool
  cells : List Cell
  hash : Bytes
deriving DecidableEq, Repr

/-- Strict lexicographic order on nibble sequences. -/
def keyLt : List Nibble → List Nibble → Bool
  | [], [] => false
  | [], _ :: _ => true
  | _ :: _, [] => false
  | a :: as, b :: bs => a < b || (a == b && keyLt as bs)

/-- The cell of a key, by descent along the key. -/
def find : List Cell → List Nibble → Option Cell
  | [], _ => none
  | c :: cs, key => if c.key = key then some c else find cs key

/-- Put a cell at its key, keeping the key order. -/
def upsert : List Cell → Cell → List Cell
  | [], c => [c]
  | d :: ds, c =>
    if d.key = c.key then c :: ds
    else if keyLt c.key d.key then c :: d :: ds
    else d :: upsert ds c

/-- Drop the cell of a key. -/
def remove : List Cell → List Nibble → List Cell
  | [], _ => []
  | d :: ds, key => if d.key = key then ds else d :: remove ds key

/-- A key without slots. -/
def blank (key : List Nibble) : Cell :=
  { key := key, byteValue := none, byteTimestamp := 0, treeValue := none, treeTimestamp := 0,
    timestamp := 0, held := 0, use := 0 }

/-- Write the slots named by `use` from the payload `c` into the cell `e`: a slot that `e`
holds is overwritten only by a strictly greater timestamp; the written slot is live iff the
payload has its bit set. -/
def merge (e c : Cell) (use : Nat) : Cell :=
  let byteWin := hasByte use && (!hasByte e.held || decide (e.byteTimestamp < c.timestamp))
  let treeWin := hasTree use && (!hasTree e.held || decide (e.treeTimestamp < c.timestamp))
  { key := e.key,
    byteValue := if byteWin then c.byteValue else e.byteValue,
    byteTimestamp := if byteWin then c.timestamp else e.byteTimestamp,
    treeValue := if treeWin then c.treeValue else e.treeValue,
    treeTimestamp := if treeWin then c.timestamp else e.treeTimestamp,
    timestamp := if byteWin || treeWin then c.timestamp else e.timestamp,
    held := mask (hasByte e.held || hasByte use) (hasTree e.held || hasTree use),
    use := mask (if byteWin then hasByte c.use else hasByte e.use)
      (if treeWin then hasTree c.use else hasTree e.use) }

/-- Remove the slots named by `use` from a cell. -/
def strip (e : Cell) (use : Nat) : Cell :=
  { e with
    byteValue := if hasByte use then none else e.byteValue,
    byteTimestamp := if hasByte use then 0 else e.byteTimestamp,
    treeValue := if hasTree use then none else e.treeValue,
    treeTimestamp := if hasTree use then 0 else e.treeTimestamp,
    held := mask (hasByte e.held && !hasByte use) (hasTree e.held && !hasTree use),
    use := mask (hasByte e.use && !hasByte use) (hasTree e.use && !hasTree use) }

/-- Tombstone the slots named by `use` that the cell holds and whose timestamp is smaller. -/
def tomb (e : Cell) (use : Nat) (timestamp : Int) : Cell :=
  let byteWin := hasByte use && hasByte e.held && decide (e.byteTimestamp < timestamp)
  let treeWin := hasTree use && hasTree e.held && decide (e.treeTimestamp < timestamp)
  { e with
    byteValue := if byteWin then none else e.byteValue,
    byteTimestamp := if byteWin then timestamp else e.byteTimestamp,
    treeValue := if treeWin then none else e.treeValue,
    treeTimestamp := if treeWin then timestamp else e.treeTimestamp,
    timestamp := if byteWin || treeWin then timestamp else e.timestamp,
    use := mask (hasByte e.use && !byteWin) (hasTree e.use && !treeWin) }

/-- Tombstone the live slots named by `use`, whatever their timestamp. -/
def wipe (e : Cell) (use : Nat) (timestamp : Int) : Cell :=
  let byteHit := hasByte use && hasByte e.use
  let treeHit := hasTree use && hasTree e.use
  { e with
    byteValue := if byteHit then none else e.byteValue,
    byteTimestamp := if byteHit then timestamp else e.byteTimestamp,
    treeValue := if treeHit then none else e.treeValue,
    treeTimestamp := if treeHit then timestamp else e.treeTimestamp,
    timestamp := if byteHit || treeHit then timestamp else e.timestamp,
    use := mask (hasByte e.use && !byteHit) (hasTree e.use && !treeHit) }

/-- The number of live slots of a cell among those named by `use`. -/
def liveCount (e : Cell) (use : Nat) : Int :=
  (if hasByte use && hasByte e.use then 1 else 0) +
    (if hasTree use && hasTree e.use then 1 else 0)

/-- A timestamp as a natural number, one to one. -/
def stamp (t : Int) : Nat := if 0 ≤ t then 2 * t.toNat else 2 * (-t).toNat - 1

/-- The encoding of a byte slice. -/
def encodeBytes : Bytes → List Nat
  | none => [0]
  | some bs => 1 :: bs.length :: bs

/-- The structural encoding of one cell: its key, its byte slot and its sub-tree slot with the
hash of the sub-tree; an absent slot is the single marker 0. -/
def encodeCell (heap : Ptr → Tree node) (c : Cell) : List Nat :=
  (c.key.length :: c.key) ++
    (if hasByte c.held then
      [1, if hasByte c.use then 1 else 0, stamp c.byteTimestamp] ++ encodeBytes c.byteValue
    else [0]) ++
    (if hasTree c.held then
      [1, if hasTree c.use then 1 else 0, stamp c.treeTimestamp] ++
        (match c.treeValue with
         | none => [0]
         | some p => encodeBytes (heap p).root.hash)
    else [0])

/-- The encoding of all cells in key order. -/
def encodeCells (heap : Ptr → Tree node) : List Cell → List Nat
  | [] => []
  | c :: cs => encodeCell heap c ++ encodeCells heap cs

/-- Recompute the aggregates of a trie from its cells. -/
def rehash (heap : Ptr → Tree node) (cells : List Cell) : node :=
  { isNil := false, cells := cells, hash := some (encodeCells heap cells) }

/-- Modelled from the spec: newNode is absent from the sources; a detached node with the given
key, slot values, timestamp and live slots; an empty node carries no slot. -/
def newNode (key : List Nibble) (bValue : Bytes) (tValue : Option Ptr) (timestamp : Int)
    (empty : Bool) (use : Nat) : node :=
  { isNil := false,
    cells := if empty then [] else
      [{ key := key, byteValue := bValue, byteTimestamp := timestamp, treeValue := tValue,
         treeTimestamp := timestamp, timestamp := timestamp, held := use, use := use }],
    hash := none }

/-- Modelled from the spec: node.insertHelp is absent from the sources; place the payload of
`n` at its key, writing the slots named by `use`, and report the slots populated before. -/
def insertHelp (heap : Ptr → Tree node) (self : node) (pre : List Nibble) (n : node)
    (use : Nat) (_now : Int) : NodeRes node :=
  match n.cells with
  | [] => { result := rehash heap self.cells, oldBytes := none, oldTree := none,
            oldTimestamp := 0, existed := 0 }
  | c :: _ =>
    match find self.cells (pre ++ c.key) with
    | none =>
      { result := rehash heap (upsert self.cells (merge (blank (pre ++ c.key)) c use)),
        oldBytes := none, oldTree := none, oldTimestamp := 0, existed := 0 }
    | some e =>
      { result := rehash heap (upsert self.cells (merge e c use)),
        oldBytes := e.byteValue, oldTree := e.treeValue, oldTimestamp := e.timestamp,
        existed := e.use }

/-- Modelled from the spec: node.insert is absent from the sources; insert writes the slots
that the new node itself carries. -/
def insert (heap : Ptr → Tree node) (self : node) (pre : List Nibble) (n : node)
    (now : Int) : NodeRes node :=
  match n.cells with
  | [] => insertHelp heap self pre n 0 now
  | c :: _ => insertHelp heap self pre n c.use now

/-- Modelled from the spec: node.get is absent from the sources; the slot values, the
timestamp and the mask of the live slots of a key, zero values when the key is not held. -/
def get (self : node) (key : List Nibble) : GetRes :=
  match find self.cells key with
  | none => { bytes := none, tree := none, timestamp := 0, existed := 0 }
  | some e => { bytes := e.byteValue, tree := e.treeValue, timestamp := e.timestamp,
                existed := e.use }

/-- Modelled from the spec: node.del is absent from the sources; physically remove the slots
named by `use`, and the key with them once it holds no slot. -/
def del (heap : Ptr → Tree node) (self : node) (pre key : List Nibble) (use : Nat)
    (_now : Int) : NodeRes node :=
  match find self.cells (pre ++ key) with
  | none => { result := rehash heap self.cells, oldBytes := none, oldTree := none,
              oldTimestamp := 0, existed := 0 }
  | some e =>
    { result := rehash heap
        (if (strip e use).held = 0 then remove self.cells (pre ++ key)
         else upsert self.cells (strip e use)),
      oldBytes := e.byteValue, oldTree := e.treeValue, oldTimestamp := e.timestamp,
      existed := e.use }

/-- Modelled from the spec: node.fakeDel is absent from the sources; write a tombstone in
place of the slots named by `use`, under the timestamp rule. -/
def fakeDel (heap : Ptr → Tree node) (self : node) (pre key : List Nibble) (use : Nat)
    (timestamp : Int) (_now : Int) : NodeRes node :=
  match find self.cells (pre ++ key) with
  | none => { result := rehash heap self.cells, oldBytes := none, oldTree := none,
              oldTimestamp := 0, existed := 0 }
  | some e =>
    { result := rehash heap (upsert self.cells (tomb e use timestamp)),
      oldBytes := e.byteValue, oldTree := e.treeValue, oldTimestamp := e.timestamp,
      existed := e.use }

/-- The sum of the live counts of all cells. -/
def liveTotal (use : Nat) : List Cell → Int
  | [] => 0
  | c :: cs => liveCount c use + liveTotal use cs

/-- Tombstone the live slots of every cell. -/
def wipeAll (use : Nat) (timestamp : Int) : List Cell → List Cell
  | [] => []
  | c :: cs => wipe c use timestamp :: wipeAll use timestamp cs

/-- Modelled from the spec: node.fakeClear is absent from the sources; tombstone every live
value named by `use` and report how many there were. -/
def fakeClear (heap : Ptr → Tree node) (self : node) (_pre : List Nibble) (use : Nat)
    (timestamp : Int) (_now : Int) : node × Int :=
  (rehash heap (wipeAll use timestamp self.cells), liveTotal use self.cells)

/-- The number of cells whose mask, read by `f`, has the bit tested by `bit`. -/
def countBy (f : Cell → Nat) (bit : Nat → Bool) : List Cell → Int
  | [] => 0
  | c :: cs => (if bit (f c) then 1 else 0) + countBy f bit cs

/-- Modelled from the spec: the node layer is absent from the sources; the layer of this
section. realSize counts the live byte values, byteSize the byte slots with their tombstones,
treeSize the sub-tree slots. -/
def layer : NodeLayer node where
  nilNode := { isNil := true, cells := [], hash := none }
  newNode := newNode
  insert := insert
  insertHelp := insertHelp
  get := get
  del := del
  fakeDel := fakeDel
  fakeClear := fakeClear
  hash := fun n => n.hash
  realSize := fun n => countBy Cell.use hasByte n.cells
  byteSize := fun n => countBy Cell.held hasByte n.cells
  treeSize := fun n => countBy Cell.held hasTree n.cells

/-- The initial state: no tree allocated, every address reads as a tree with a nil root, and
the timer returns 100, 101, 102, ... -/
def world0 : World node :=
  { heap := fun _ => { logger := none, root := layer.nilNode },
    next := 0, clock := fun k => 100 + (k : Int), ticks := 0 }

/-- The state after NewTree: one empty tree at address 0. -/
def worldNew : World node := (NewTreeTimer layer world0).1

/-- The outer key "k". -/
def keyK : Bytes := some [107]

/-- The sub-key "a". -/
def keyA : Bytes := some [97]

/-- The value "v". -/
def valV : Bytes := some [118]

/-- The value "x". -/
def valX : Bytes := some [120]

/-- The empty tree after SubPut("k", "a", "v", 1): the key "k" holds a sub-tree only. -/
def worldSub : World node := (Tree.SubPut layer worldNew 0 keyK keyA valV 1).world

/-- The tree of worldSub after Put("k", "x", 5): the key "k" holds a byte value and a
sub-tree. -/
def worldBoth : World node := (Tree.Put layer worldSub 0 keyK valX 5).world

/-- The empty tree after Put("k", "v", 1). -/
def worldPut : World node := (Tree.Put layer worldNew 0 keyK valV 1).world

/-- The sub-key "b". -/
def keyB : Bytes := some [98]

/-- The tree of worldSub after SubPut("k", "b", "x", 2): the sub-tree under "k" holds the two
sub-keys "a" and "b". -/
def worldSub2 : World node := (Tree.SubPut layer worldSub 0 keyK keyB valX 2).world

/-- The tree of worldPut with a logger that found the single record "delete k". -/
def worldDelLog : World node := Tree.Log worldPut 0 [{ Key := keyK }]

/-- The two calls Put("k", "v", 1), FakeDel("k", 2). -/
def putThenFakeDel : List Mutation := [.Put keyK valV 1, .FakeDel keyK 2]

end Model

end Radix

/-! ## The client read path (`client/client.go`) -/

namespace Client

open Radix

/-- Modelled from the spec: common.Item is declared in the absent common package; the fields
are the ones client.go reads. -/
structure Item where
  Key : Bytes
  Value : Bytes
  Timestamp : Int
  Exists : Bool
deriving DecidableEq, Repr

/-- One fanned-out call once it is done: the reply that the successor wrote into
`results[index]` and whether `future.Error` is set. -/
structure Reply where
  item : Item
  failed : Bool
deriving DecidableEq, Repr

/-- What a call of Conn.Get ends with: the two results, or the nil dereference of the final
read of `result.Value`. -/
inductive Outcome where
  | value (value : Bytes) (existed : Bool)
  | nilDeref
deriving DecidableEq, Repr

/-- The loop of Conn.Get over the futures, started with the item selected so far. The outer
`none` is the exit through Reconnect on the first failed call. -/
def Conn.latest : Option Item → List Reply → Option (Option Item)
  | result, [] => some result
  | result, r :: rest =>
    if r.failed then none
    else
      match result with
      | none => Conn.latest (some r.item) rest
      | some cur =>
        if cur.Timestamp < r.item.Timestamp then Conn.latest (some r.item) rest
        else Conn.latest (some cur) rest

/-- Conn.Get.  The ring and the transport are external: the argument lists, for this call and
for each retry after a Reconnect, the replies of the `Redundancy()` calls in fan-out order.
The result is `none` when the listed rounds all end in a retry. -/
def Conn.Get : List (List Reply) → Option Outcome
  | [] => none
  | round :: rounds =>
    match Conn.latest none round with
    | none => Conn.Get rounds
    | some none => some Outcome.nilDeref
    | some (some it) => some (Outcome.value it.Value it.Exists)

/-- Three replies without failure, with the timestamps 3, 8 and 8, in fan-out order. -/
def threeReplies : List Reply :=
  [{ item := { Key := some [107], Value := some [97], Timestamp := 3, Exists := true },
     failed := false },
   { item := { Key := some [107], Value := some [98], Timestamp := 8, Exists := true },
     failed := false },
   { item := { Key := some [107], Value := some [99], Timestamp := 8, Exists := false },
     failed := false }]

end Client

/-! ## The read side of the tree -/

namespace Radix

/-- The arguments of one call of a nodeIterator. -/
structure NodeVisit where
  key : Bytes
  bValue : Bytes
  tValue : Option Ptr
  use : Nat
  timestamp : Int
deriving DecidableEq, Repr

/-- The arguments of one call of a nodeIndexIterator. -/
structure NodeIndexVisit where
  key : Bytes
  bValue : Bytes
  tValue : Option Ptr
  use : Nat
  timestamp : Int
  index : Int
deriving DecidableEq, Repr

/-- The arguments of one call of a TreeIterator. -/
structure Visit where
  key : Bytes
  value : Bytes
  timestamp : Int
deriving DecidableEq, Repr

/-- The arguments of one call of a TreeIndexIterator. -/
structure IndexVisit where
  key : Bytes
  value : Bytes
  timestamp : Int
  index : Int
deriving DecidableEq, Repr

/-- A Go callback `func(args) (cont bool)` that writes to captured variables: it transforms
the captured state `σ` and returns the flag. -/
abbrev Callback (α σ : Type) := α → σ → σ × Bool

/-- Modelled from the spec: the struct of one node witness of a Print is declared in the absent
node layer; the segment of the node, the hash of its subtree, the hash after applying the
node, and the timestamps of its slots. -/
structure PrintStep where
  segment : List Nibble
  subHash : Bytes
  hash : Bytes
  byteTimestamp : Int
  treeTimestamp : Int
deriving DecidableEq, Repr

/-- Modelled from the spec: the struct Print is declared in the absent node layer; the ordered
list of the node witnesses collected along a descent. `&Print{}` is the Print without
witnesses. -/
structure Print where
  steps : List PrintStep
deriving DecidableEq, Repr

/-- The reading operations of the node layer that tree.go calls.  An iteration receives the
callback and the state captured by it, and returns the state it leaves; a nil slice of nibbles
is `none`. -/
structure NodeReads (N : Type) : Type 1 where
  each : (σ : Type) → N → List Nibble → Nat → Callback NodeVisit σ → σ → σ
  reverseEach : (σ : Type) → N → List Nibble → Nat → Callback NodeVisit σ → σ → σ
  eachBetween : (σ : Type) → N → List Nibble → Option (List Nibble) → Option (List Nibble) →
    Int → Int → Nat → Callback NodeVisit σ → σ → σ
  reverseEachBetween : (σ : Type) → N → List Nibble → Option (List Nibble) →
    Option (List Nibble) → Int → Int → Nat → Callback NodeVisit σ → σ → σ
  indexOf : N → Int → List Nibble → Nat → Bool → Int × Nat
  eachBetweenIndex : (σ : Type) → N → List Nibble → Int → Option Int → Option Int → Nat →
    Callback NodeIndexVisit σ → σ → σ
  reverseEachBetweenIndex : (σ : Type) → N → List Nibble → Int → Option Int → Option Int →
    Nat → Callback NodeIndexVisit σ → σ → σ
  sizeBetween : N → List Nibble → Option (List Nibble) → Option (List Nibble) → Int → Int →
    Nat → Int
  finger : N → Print → List Nibble → Print

/-- The results (key, value, timestamp, existed) of First, Last, Prev and Next. -/
structure Found where
  key : Bytes
  value : Bytes
  timestamp : Int
  existed : Bool
deriving DecidableEq, Repr

/-- The results (key, value, timestamp, index, existed) of NextIndex and PrevIndex. -/
structure FoundAt where
  key : Bytes
  value : Bytes
  timestamp : Int
  index : Int
  existed : Bool
deriving DecidableEq, Repr

/-- The results (index, existed) of IndexOf and ReverseIndexOf. -/
structure Indexed where
  index : Int
  existed : Bool
deriving DecidableEq, Repr

/-- The zero values of the named results (key, value, timestamp, existed). -/
def Found.zero : Found := { key := none, value := none, timestamp := 0, existed := false }

/-- The zero values of the named results (key, value, timestamp, index, existed). -/
def FoundAt.zero : FoundAt :=
  { key := none, value := none, timestamp := 0, index := 0, existed := false }

/-- The zero values of the named results (index, existed). -/
def Indexed.zero : Indexed := { index := 0, existed := false }

/-- The zero values of the named results (byteValue, timestamp, existed/present). -/
def Got.zero : Got := { bValue := none, timestamp := 0, existed := false }

/-- The function cmps; the pair is (mincmp, maxcmp). -/
def cmps (mininc maxinc : Bool) : Int × Int :=
  (if mininc then -1 else 0, if maxinc then 1 else 0)

/-- The function newNodeIterator. -/
def newNodeIterator {σ : Type} (f : Callback Visit σ) : Callback NodeVisit σ :=
  fun v s => f { key := v.key, value := v.bValue, timestamp := v.timestamp } s

/-- The function newNodeIndexIterator. -/
def newNodeIndexIterator {σ : Type} (f : Callback IndexVisit σ) :
    Callback NodeIndexVisit σ :=
  fun v s => f { key := v.key, value := v.bValue, timestamp := v.timestamp, index := v.index } s

section TreeReads

variable {N σ : Type}

/-- Tree.Each, on a non-nil receiver. -/
def Tree.Each (R : NodeReads N) (w : World N) (self : Ptr) (f : Callback Visit σ) (s : σ) :
    σ :=
  R.each σ (w.heap self).root [] byteValue (newNodeIterator f) s

/-- Tree.ReverseEach, on a non-nil receiver. -/
def Tree.ReverseEach (R : NodeReads N) (w : World N) (self : Ptr) (f : Callback Visit σ)
    (s : σ) : σ :=
  R.reverseEach σ (w.heap self).root [] byteValue (newNodeIterator f) s

/-- Tree.EachBetween, on a non-nil receiver. -/
def Tree.EachBetween (R : NodeReads N) (w : World N) (self : Ptr) (min max : Bytes)
    (mininc maxinc : Bool) (f : Callback Visit σ) (s : σ) : σ :=
  R.eachBetween σ (w.heap self).root [] (some (rip min)) (some (rip max))
    (cmps mininc maxinc).1 (cmps mininc maxinc).2 byteValue (newNodeIterator f) s

/-- Tree.ReverseEachBetween, on a non-nil receiver. -/
def Tree.ReverseEachBetween (R : NodeReads N) (w : World N) (self : Ptr) (min max : Bytes)
    (mininc maxinc : Bool) (f : Callback Visit σ) (s : σ) : σ :=
  R.reverseEachBetween σ (w.heap self).root [] (some (rip min)) (some (rip max))
    (cmps mininc maxinc).1 (cmps mininc maxinc).2 byteValue (newNodeIterator f) s

/-- Tree.IndexOf, on a non-nil receiver. -/
def Tree.IndexOf (R : NodeReads N) (w : World N) (self : Ptr) (key : Bytes) : Indexed :=
  let r := R.indexOf (w.heap self).root 0 (rip key) byteValue true
  { index := r.1, existed := r.2 &&& byteValue != 0 }

/-- Tree.ReverseIndexOf, on a non-nil receiver. -/
def Tree.ReverseIndexOf (R : NodeReads N) (w : World N) (self : Ptr) (key : Bytes) :
    Indexed :=
  let r := R.indexOf (w.heap self).root 0 (rip key) byteValue false
  { index := r.1, existed := r.2 &&& byteValue != 0 }

/-- Tree.EachBetweenIndex, on a non-nil receiver. -/
def Tree.EachBetweenIndex (R : NodeReads N) (w : World N) (self : Ptr) (min max : Option Int)
    (f : Callback IndexVisit σ) (s : σ) : σ :=
  R.eachBetweenIndex σ (w.heap self).root [] 0 min max byteValue (newNodeIndexIterator f) s

/-- Tree.ReverseEachBetweenIndex, on a non-nil receiver. -/
def Tree.ReverseEachBetweenIndex (R : NodeReads N) (w : World N) (self : Ptr)
    (min max : Option Int) (f : Callback IndexVisit σ) (s : σ) : σ :=
  R.reverseEachBetweenIndex σ (w.heap self).root [] 0 min max byteValue
    (newNodeIndexIterator f) s

/-- Tree.sizeBetween, on a non-nil receiver. -/
def Tree.sizeBetween (R : NodeReads N) (w : World N) (self : Ptr) (min max : Bytes)
    (mininc maxinc : Bool) (use : Nat) : Int :=
  R.sizeBetween (w.heap self).root [] (some (rip min)) (some (rip max))
    (cmps mininc maxinc).1 (cmps mininc maxinc).2 use

/-- Tree.SizeBetween. -/
def Tree.SizeBetween (R : NodeReads N) (w : World N) (self : Ptr) (min max : Bytes)
    (mininc maxinc : Bool) : Int :=
  Tree.sizeBetween R w self min max mininc maxinc (byteValue ||| treeValue)

/-- Tree.Prev, on a non-nil receiver: the callback stores its arguments and stops. -/
def Tree.Prev (R : NodeReads N) (w : World N) (self : Ptr) (key : Bytes) : Found :=
  R.reverseEachBetween Found (w.heap self).root [] none (some (rip key)) 0 0 byteValue
    (fun v _ =>
      ({ key := v.key, value := v.bValue, timestamp := v.timestamp, existed := v.use != 0 },
        false))
    Found.zero

/-- Tree.Next, on a non-nil receiver: the callback stores its arguments and stops. -/
def Tree.Next (R : NodeReads N) (w : World N) (self : Ptr) (key : Bytes) : Found :=
  R.eachBetween Found (w.heap self).root [] (some (rip key)) none 0 0 byteValue
    (fun v _ =>
      ({ key := v.key, value := v.bValue, timestamp := v.timestamp, existed := v.use != 0 },
        false))
    Found.zero

/-- Tree.NextIndex, on a non-nil receiver: the callback stores its arguments and stops. -/
def Tree.NextIndex (R : NodeReads N) (w : World N) (self : Ptr) (index : Int) : FoundAt :=
  R.eachBetweenIndex FoundAt (w.heap self).root [] 0 (some index) none byteValue
    (fun v _ =>
      ({ key := v.key, value := v.bValue, timestamp := v.timestamp, index := v.index,
         existed := v.use != 0 }, false))
    FoundAt.zero

/-- Tree.PrevIndex, on a non-nil receiver: the callback stores its arguments and stops. -/
def Tree.PrevIndex (R : NodeReads N) (w : World N) (self : Ptr) (index : Int) : FoundAt :=
  R.reverseEachBetweenIndex FoundAt (w.heap self).root [] 0 none (some index) byteValue
    (fun v _ =>
      ({ key := v.key, value := v.bValue, timestamp := v.timestamp, index := v.index,
         existed := v.use != 0 }, false))
    FoundAt.zero

/-- Tree.First: the callback stores its arguments and stops. -/
def Tree.First (R : NodeReads N) (w : World N) (self : Ptr) : Found :=
  Tree.Each R w self
    (fun v _ => ({ key := v.key, value := v.value, timestamp := v.timestamp, existed := true },
      false))
    Found.zero

/-- Tree.Last: the callback stores its arguments and stops. -/
def Tree.Last (R : NodeReads N) (w : World N) (self : Ptr) : Found :=
  Tree.ReverseEach R w self
    (fun v _ => ({ key := v.key, value := v.value, timestamp := v.timestamp, existed := true },
      false))
    Found.zero

/-- Tree.Finger. -/
def Tree.Finger (R : NodeReads N) (w : World N) (self : Ptr) (key : List Nibble) : Print :=
  R.finger (w.heap self).root { steps := [] } key

/-- Tree.SubReverseIndexOf: the delegation in the third arm is the body of
`if ex&treeValue != 0 && subTree != nil`; in the other arms the zero results are returned. -/
def Tree.SubReverseIndexOf (L : NodeLayer N) (R : NodeReads N) (w : World N) (self : Ptr)
    (key subKey : Bytes) : Indexed :=
  let g := L.get (w.heap self).root (rip key)
  match g.tree with
  | none => Indexed.zero
  | some subTree =>
    if g.existed &&& treeValue ≠ 0 then Tree.ReverseIndexOf R w subTree subKey
    else Indexed.zero

/-- Tree.SubIndexOf: the delegation in the third arm is the body of
`if ex&treeValue != 0 && subTree != nil`; in the other arms the zero results are returned. -/
def Tree.SubIndexOf (L : NodeLayer N) (R : NodeReads N) (w : World N) (self : Ptr)
    (key subKey : Bytes) : Indexed :=
  let g := L.get (w.heap self).root (rip key)
  match g.tree with
  | none => Indexed.zero
  | some subTree =>
    if g.existed &&& treeValue ≠ 0 then Tree.IndexOf R w subTree subKey
    else Indexed.zero

/-- Tree.SubPrevIndex: the delegation in the third arm is the body of
`if ex&treeValue != 0 && subTree != nil`; in the other arms the zero results are returned. -/
def Tree.SubPrevIndex (L : NodeLayer N) (R : NodeReads N) (w : World N) (self : Ptr)
    (key : Bytes) (index : Int) : FoundAt :=
  let g := L.get (w.heap self).root (rip key)
  match g.tree with
  | none => FoundAt.zero
  | some subTree =>
    if g.existed &&& treeValue ≠ 0 then Tree.PrevIndex R w subTree index
    else FoundAt.zero

/-- Tree.SubNextIndex: the delegation in the third arm is the body of
`if ex&treeValue != 0 && subTree != nil`; in the other arms the zero results are returned. -/
def Tree.SubNextIndex (L : NodeLayer N) (R : NodeReads N) (w : World N) (self : Ptr)
    (key : Bytes) (index : Int) : FoundAt :=
  let g := L.get (w.heap self).root (rip key)
  match g.tree with
  | none => FoundAt.zero
  | some subTree =>
    if g.existed &&& treeValue ≠ 0 then Tree.NextIndex R w subTree index
    else FoundAt.zero

/-- Tree.SubFirst: the delegation in the third arm is the body of
`if ex&treeValue != 0 && subTree != nil`; in the other arms the zero results are returned. -/
def Tree.SubFirst (L : NodeLayer N) (R : NodeReads N) (w : World N) (self : Ptr)
    (key : Bytes) : Found :=
  let g := L.get (w.heap self).root (rip key)
  match g.tree with
  | none => Found.zero
  | some subTree =>
    if g.existed &&& treeValue ≠ 0 then Tree.First R w subTree
    else Found.zero

/-- Tree.SubLast: the delegation in the third arm is the body of
`if ex&treeValue != 0 && subTree != nil`; in the other arms the zero results are returned. -/
def Tree.SubLast (L : NodeLayer N) (R : NodeReads N) (w : World N) (self : Ptr)
    (key : Bytes) : Found :=
  let g := L.get (w.heap self).root (rip key)
  match g.tree with
  | none => Found.zero
  | some subTree =>
    if g.existed &&& treeValue ≠ 0 then Tree.Last R w subTree
    else Found.zero

/-- Tree.SubPrev: the delegation in the third arm is the body of
`if ex&treeValue != 0 && subTree != nil`; in the other arms the zero results are returned. -/
def Tree.SubPrev (L : NodeLayer N) (R : NodeReads N) (w : World N) (self : Ptr)
    (key subKey : Bytes) : Found :=
  let g := L.get (w.heap self).root (rip key)
  match g.tree with
  | none => Found.zero
  | some subTree =>
    if g.existed &&& treeValue ≠ 0 then Tree.Prev R w subTree subKey
    else Found.zero

/-- Tree.SubNext: the delegation in the third arm is the body of
`if ex&treeValue != 0 && subTree != nil`; in the other arms the zero results are returned. -/
def Tree.SubNext (L : NodeLayer N) (R : NodeReads N) (w : World N) (self : Ptr)
    (key subKey : Bytes) : Found :=
  let g := L.get (w.heap self).root (rip key)
  match g.tree with
  | none => Found.zero
  | some subTree =>
    if g.existed &&& treeValue ≠ 0 then Tree.Next R w subTree subKey
    else Found.zero

/-- Tree.SubSize: the delegation in the third arm is the body of
`if ex&treeValue != 0 && subTree != nil`; in the other arms the zero results are returned. -/
def Tree.SubSize (L : NodeLayer N) (w : World N) (self : Ptr)
    (key : Bytes) : Int :=
  let g := L.get (w.heap self).root (rip key)
  match g.tree with
  | none => 0
  | some subTree =>
    if g.existed &&& treeValue ≠ 0 then Tree.Size L w subTree
    else 0

/-- Tree.SubSizeBetween: the delegation in the third arm is the body of
`if ex&treeValue != 0 && subTree != nil`; in the other arms the zero results are returned. -/
def Tree.SubSizeBetween (L : NodeLayer N) (R : NodeReads N) (w : World N) (self : Ptr)
    (key min max : Bytes) (mininc maxinc : Bool) : Int :=
  let g := L.get (w.heap self).root (rip key)
  match g.tree with
  | none => 0
  | some subTree =>
    if g.existed &&& treeValue ≠ 0 then Tree.SizeBetween R w subTree min max mininc maxinc
    else 0

/-- Tree.SubGet: the delegation in the third arm is the body of
`if ex&treeValue != 0 && subTree != nil`; in the other arms the zero results are returned. -/
def Tree.SubGet (L : NodeLayer N) (w : World N) (self : Ptr)
    (key subKey : Bytes) : Got :=
  let g := L.get (w.heap self).root (rip key)
  match g.tree with
  | none => Got.zero
  | some subTree =>
    if g.existed &&& treeValue ≠ 0 then Tree.Get L w subTree subKey
    else Got.zero

/-- Tree.SubReverseEachBetween: the delegation in the third arm is the body of
`if ex&treeValue != 0 && subTree != nil`; in the other arms the zero results are returned. -/
def Tree.SubReverseEachBetween (L : NodeLayer N) (R : NodeReads N) (w : World N) (self : Ptr)
    (key min max : Bytes) (mininc maxinc : Bool) (f : Callback Visit σ) (s : σ) : σ :=
  let g := L.get (w.heap self).root (rip key)
  match g.tree with
  | none => s
  | some subTree =>
    if g.existed &&& treeValue ≠ 0 then 
      Tree.ReverseEachBetween R w subTree min max mininc maxinc f s
    else s

/-- Tree.SubEachBetween: the delegation in the third arm is the body of
`if ex&treeValue != 0 && subTree != nil`; in the other arms the zero results are returned. -/
def Tree.SubEachBetween (L : NodeLayer N) (R : NodeReads N) (w : World N) (self : Ptr)
    (key min max : Bytes) (mininc maxinc : Bool) (f : Callback Visit σ) (s : σ) : σ :=
  let g := L.get (w.heap self).root (rip key)
  match g.tree with
  | none => s
  | some subTree =>
    if g.existed &&& treeValue ≠ 0 then 
      Tree.EachBetween R w subTree min max mininc maxinc f s
    else s

/-- Tree.SubReverseEachBetweenIndex: the delegation in the third arm is the body of
`if ex&treeValue != 0 && subTree != nil`; in the other arms the zero results are returned. -/
def Tree.SubReverseEachBetweenIndex (L : NodeLayer N) (R : NodeReads N) (w : World N) (self : Ptr)
    (key : Bytes) (min max : Option Int) (f : Callback IndexVisit σ) (s : σ) : σ :=
  let g := L.get (w.heap self).root (rip key)
  match g.tree with
  | none => s
  | some subTree =>
    if g.existed &&& treeValue ≠ 0 then 
      Tree.ReverseEachBetweenIndex R w subTree min max f s
    else s

/-- Tree.SubEachBetweenIndex: the delegation in the third arm is the body of
`if ex&treeValue != 0 && subTree != nil`; in the other arms the zero results are returned. -/
def Tree.SubEachBetweenIndex (L : NodeLayer N) (R : NodeReads N) (w : World N) (self : Ptr)
    (key : Bytes) (min max : Option Int) (f : Callback IndexVisit σ) (s : σ) : σ :=
  let g := L.get (w.heap self).root (rip key)
  match g.tree with
  | none => s
  | some subTree =>
    if g.existed &&& treeValue ≠ 0 then 
      Tree.EachBetweenIndex R w subTree min max f s
    else s

/-- Tree.SubFinger: the delegation in the third arm is the body of
`if ex&treeValue != 0 && subTree != nil`; in the other arms the zero results are returned. -/
def Tree.SubFinger (L : NodeLayer N) (R : NodeReads N) (w : World N) (self : Ptr)
    (key subKey : List Nibble) : Print :=
  let g := L.get (w.heap self).root key
  match g.tree with
  | none => { steps := [] }
  | some subTree =>
    if g.existed &&& treeValue ≠ 0 then Tree.Finger R w subTree subKey
    else { steps := [] }

/-- Tree.SubGetTimestamp: the delegation in the third arm is the body of
`if ex&treeValue != 0 && subTree != nil`; in the other arms the zero results are returned. -/
def Tree.SubGetTimestamp (L : NodeLayer N) (w : World N) (self : Ptr)
    (key subKey : List Nibble) : Got :=
  let g := L.get (w.heap self).root key
  match g.tree with
  | none => Got.zero
  | some subTree =>
    if g.existed &&& treeValue ≠ 0 then Tree.GetTimestamp L w subTree subKey
    else Got.zero

end TreeReads

end Radix

/-! ## The reading operations of the concrete node layer -/

namespace Radix

namespace Model

/-- Modelled from the spec: the iteration protocol of the absent node layer; the callback is
called on the visits in order, and returning false aborts immediately. -/
def iterate {α σ : Type} (f : Callback α σ) : List α → σ → σ
  | [], s => s
  | v :: vs, s => if (f v s).2 then iterate f vs (f v s).1 else (f v s).1

/-- The slots of the cell intersect the use mask; the mask 0 addresses every key. -/
def touches (use : Nat) (c : Cell) : Bool :=
  use == 0 || (hasByte use && hasByte c.held) || (hasTree use && hasTree c.held)

/-- Three-way comparison of nibble sequences: -1, 0 or 1. -/
def keyCmp (a b : List Nibble) : Int :=
  if keyLt a b then -1 else if keyLt b a then 1 else 0

/-- The key lies between the bounds: a bound is passed when the comparison with it is beyond
its cmp value (-1 or 1 for an inclusive bound, 0 for an exclusive one); a nil bound is no
bound. -/
def within (min max : Option (List Nibble)) (mincmp maxcmp : Int) (k : List Nibble) : Bool :=
  (match min with
    | none => true
    | some m => decide (mincmp < keyCmp k m)) &&
  (match max with
    | none => true
    | some m => decide (keyCmp k m < maxcmp))

/-- The arguments with which the iterator is called on a cell. -/
def visitOf (pre : List Nibble) (c : Cell) : NodeVisit :=
  { key := stitch (pre ++ c.key), bValue := c.byteValue, tValue := c.treeValue, use := c.use,
    timestamp := c.timestamp }

/-- The cells that an iteration with the given use mask and bounds visits, in key order. -/
def selected (pre : List Nibble) (min max : Option (List Nibble)) (mincmp maxcmp : Int)
    (use : Nat) (cells : List Cell) : List Cell :=
  cells.filter (fun c => touches use c && within min max mincmp maxcmp (pre ++ c.key))

/-- Number the visits from `count` on. -/
def number (pre : List Nibble) (count : Int) : List Cell → List NodeIndexVisit
  | [] => []
  | c :: cs =>
    { key := stitch (pre ++ c.key), bValue := c.byteValue, tValue := c.treeValue, use := c.use,
      timestamp := c.timestamp, index := count } :: number pre (count + 1) cs

/-- The index lies between the optional inclusive bounds. -/
def inIndex (min max : Option Int) (v : NodeIndexVisit) : Bool :=
  (match min with
    | none => true
    | some m => decide (m ≤ v.index)) &&
  (match max with
    | none => true
    | some m => decide (v.index ≤ m))

/-- The contribution of a cell to a size under the use mask: its live byte value for the mask
0, else its slots named by the mask. -/
def sizeOf (use : Nat) (c : Cell) : Int :=
  if use = 0 then (if hasByte c.use then 1 else 0)
  else (if hasByte use && hasByte c.held then 1 else 0) +
    (if hasTree use && hasTree c.held then 1 else 0)

/-- The sum of the contributions of the cells. -/
def sizeSum (use : Nat) : List Cell → Int
  | [] => 0
  | c :: cs => sizeOf use c + sizeSum use cs

/-- The witness of a cell on the descent to a key; the flat representation has one hash, the
cached hash of the trie. -/
def witnessOf (self : node) (c : Cell) : PrintStep :=
  { segment := c.key, subHash := self.hash, hash := self.hash,
    byteTimestamp := c.byteTimestamp, treeTimestamp := c.treeTimestamp }

/-- Modelled from the spec: the reading operations of the node layer are absent from the
sources; ordered iteration over the keys whose slots intersect the use mask, with key bounds or
index bounds, the order-statistic lookup, the size between bounds, and the finger that collects
the witnesses of the keys on the descent to a key. -/
def reads : NodeReads node where
  each := fun _ self pre use f s =>
    iterate f ((selected pre none none 0 0 use self.cells).map (visitOf pre)) s
  reverseEach := fun _ self pre use f s =>
    iterate f ((selected pre none none 0 0 use self.cells).reverse.map (visitOf pre)) s
  eachBetween := fun _ self pre min max mincmp maxcmp use f s =>
    iterate f ((selected pre min max mincmp maxcmp use self.cells).map (visitOf pre)) s
  reverseEachBetween := fun _ self pre min max mincmp maxcmp use f s =>
    iterate f ((selected pre min max mincmp maxcmp use self.cells).reverse.map (visitOf pre)) s
  indexOf := fun self count key use up =>
    (count + ((self.cells.filter (fun c => touches use c &&
        (if up then keyLt c.key key else keyLt key c.key))).length : Int),
      (get self key).existed)
  eachBetweenIndex := fun _ self pre count min max use f s =>
    iterate f ((number pre count (selected pre none none 0 0 use self.cells)).filter
      (inIndex min max)) s
  reverseEachBetweenIndex := fun _ self pre count min max use f s =>
    iterate f ((number pre count (selected pre none none 0 0 use self.cells).reverse).filter
      (inIndex min max)) s
  sizeBetween := fun self pre min max mincmp maxcmp use =>
    sizeSum use (selected pre min max mincmp maxcmp 0 self.cells)
  finger := fun self print key =>
    { steps := print.steps ++
        (self.cells.filter (fun c => c.key.isPrefixOf key)).map (witnessOf self) }

/-- A callback that records its arguments and continues. -/
def record {α : Type} : Callback α (List α) := fun v s => (s ++ [v], true)

end Model

end Radix

/-! ## The write lock and the assignments to the root

The state passing above does not carry the mutex.  For every mutator the sequence of its
steps that take or release the write lock of a tree or assign the field `root` of a tree is
given here, in program order; the branches taken are those of the state-passing definition. -/

namespace Radix

/-- A step of a mutator on the lock or on the root field of the tree at the address. -/
inductive Step where
  /-- `self.lock.Lock()`. -/
  | Lock (p : Ptr)
  /-- The deferred `self.lock.Unlock()`. -/
  | Unlock (p : Ptr)
  /-- An assignment `self.root, ... = ...`. -/
  | SetRoot (p : Ptr)
  /-- The assignment to the root of the tree that NewTreeTimer is constructing. -/
  | Construct (p : Ptr)
deriving DecidableEq, Repr

/-- The trees whose root is assigned by one of the steps while their write lock is not held;
`held` lists the locks held before the steps. The tree under construction is not counted. -/
def unguarded : List Ptr → List Step → List Ptr
  | _, [] => []
  | held, Step.Lock p :: rest => unguarded (p :: held) rest
  | held, Step.Unlock p :: rest => unguarded (held.erase p) rest
  | held, Step.SetRoot p :: rest =>
    if p ∈ held then unguarded held rest else p :: unguarded held rest
  | held, Step.Construct _ :: rest => unguarded held rest

section Steps

variable {N : Type}

/-- Steps of Tree.put. -/
def Tree.put.steps (self : Ptr) : List Step := [Step.SetRoot self]

/-- Steps of Tree.Put. -/
def Tree.Put.steps (self : Ptr) : List Step :=
  [Step.Lock self] ++ Tree.put.steps self ++ [Step.Unlock self]

/-- Steps of Tree.FakeDel. -/
def Tree.FakeDel.steps (self : Ptr) : List Step :=
  [Step.Lock self, Step.SetRoot self, Step.Unlock self]

/-- Steps of Tree.Clear: fakeClear works on the nodes in place, the field is not assigned. -/
def Tree.Clear.steps (self : Ptr) : List Step := [Step.Lock self, Step.Unlock self]

/-- Steps of Tree.del. -/
def Tree.del.steps (self : Ptr) : List Step := [Step.SetRoot self]

/-- Steps of Tree.Del. -/
def Tree.Del.steps (self : Ptr) : List Step :=
  [Step.Lock self] ++ Tree.del.steps self ++ [Step.Unlock self]

/-- Steps of Tree.putTimestamp. -/
def Tree.putTimestamp.steps (L : NodeLayer N) (w : World N) (self : Ptr) (key : List Nibble)
    (expected : Int) : List Step :=
  if (L.get (w.heap self).root key).timestamp = expected then [Step.SetRoot self] else []

/-- Steps of Tree.PutTimestamp. -/
def Tree.PutTimestamp.steps (L : NodeLayer N) (w : World N) (self : Ptr) (key : List Nibble)
    (expected : Int) : List Step :=
  [Step.Lock self] ++ Tree.putTimestamp.steps L w self key expected ++ [Step.Unlock self]

/-- Steps of Tree.delTimestamp. -/
def Tree.delTimestamp.steps (L : NodeLayer N) (w : World N) (self : Ptr) (key : List Nibble)
    (expected : Int) : List Step :=
  if (L.get (w.heap self).root key).timestamp = expected then [Step.SetRoot self] else []

/-- Steps of Tree.DelTimestamp. -/
def Tree.DelTimestamp.steps (L : NodeLayer N) (w : World N) (self : Ptr) (key : List Nibble)
    (expected : Int) : List Step :=
  [Step.Lock self] ++ Tree.delTimestamp.steps L w self key expected ++ [Step.Unlock self]

/-- Steps of NewTreeTimer. -/
def NewTreeTimer.steps (w : World N) : List Step := [Step.Construct w.next]

/-- Steps of Tree.newTreeWith. -/
def Tree.newTreeWith.steps (L : NodeLayer N) (w : World N) (key : List Nibble) : List Step :=
  NewTreeTimer.steps w ++
    Tree.PutTimestamp.steps L (NewTreeTimer L w).1 (NewTreeTimer L w).2 key 0

/-- Steps of Tree.SubPut. -/
def Tree.SubPut.steps (L : NodeLayer N) (w : World N) (self : Ptr) (key subKey : Bytes) :
    List Step :=
  let g := L.get (w.heap self).root (rip key)
  [Step.Lock self] ++
    (match g.tree with
      | none => Tree.newTreeWith.steps L w (rip subKey)
      | some subTree =>
        if g.existed &&& treeValue = 0 then Tree.newTreeWith.steps L w (rip subKey)
        else Tree.Put.steps subTree) ++
    Tree.put.steps self ++ [Step.Unlock self]

/-- Steps of Tree.SubDel. -/
def Tree.SubDel.steps (L : NodeLayer N) (w : World N) (self : Ptr) (key subKey : Bytes) :
    List Step :=
  let g := L.get (w.heap self).root (rip key)
  [Step.Lock self] ++
    (match g.tree with
      | none => []
      | some subTree =>
        if g.existed &&& treeValue ≠ 0 then
          Tree.Del.steps subTree ++
            (if Tree.RealSize L (Tree.Del L w subTree subKey).world subTree = 0 then
              Tree.del.steps self
            else Tree.put.steps self)
        else []) ++
    [Step.Unlock self]

/-- Steps of Tree.SubFakeDel. -/
def Tree.SubFakeDel.steps (L : NodeLayer N) (w : World N) (self : Ptr) (key : Bytes) :
    List Step :=
  let g := L.get (w.heap self).root (rip key)
  [Step.Lock self] ++
    (match g.tree with
      | none => []
      | some subTree =>
        if g.existed &&& treeValue ≠ 0 then Tree.FakeDel.steps subTree ++ Tree.put.steps self
        else []) ++
    [Step.Unlock self]

/-- Steps of Tree.SubClear. -/
def Tree.SubClear.steps (L : NodeLayer N) (w : World N) (self : Ptr) (key : Bytes) :
    List Step :=
  let g := L.get (w.heap self).root (rip key)
  [Step.Lock self] ++
    (match g.tree with
      | none => []
      | some subTree =>
        if g.existed &&& treeValue ≠ 0 then Tree.Clear.steps subTree ++ Tree.put.steps self
        else []) ++
    [Step.Unlock self]

/-- Steps of Tree.SubPutTimestamp. -/
def Tree.SubPutTimestamp.steps (L : NodeLayer N) (w : World N) (self : Ptr)
    (key subKey : List Nibble) (bValue : Bytes) (present : Bool)
    (subExpected subTimestamp : Int) : List Step :=
  let g := L.get (w.heap self).root key
  [Step.Lock self] ++
    (match g.tree with
      | none =>
        Tree.newTreeWith.steps L w subKey ++
          Tree.putTimestamp.steps L (Tree.newTreeWith L w subKey bValue subTimestamp).1 self
            key g.timestamp
      | some subTree =>
        Tree.PutTimestamp.steps L w subTree subKey subExpected ++
          Tree.putTimestamp.steps L
            (Tree.PutTimestamp L w subTree subKey bValue present subExpected
              subTimestamp).world self key g.timestamp) ++
    [Step.Unlock self]

/-- Steps of Tree.SubDelTimestamp. -/
def Tree.SubDelTimestamp.steps (L : NodeLayer N) (w : World N) (self : Ptr)
    (key subKey : List Nibble) (subExpected : Int) : List Step :=
  let g := L.get (w.heap self).root key
  [Step.Lock self] ++
    (match g.tree with
      | none => []
      | some subTree =>
        if g.existed &&& treeValue ≠ 0 then
          Tree.DelTimestamp.steps L w subTree subKey subExpected ++
            (if Tree.Size L (Tree.DelTimestamp L w subTree subKey subExpected).world subTree
                = 0 then
              Tree.delTimestamp.steps L
                (Tree.DelTimestamp L w subTree subKey subExpected).world self key g.timestamp
            else
              Tree.putTimestamp.steps L
                (Tree.DelTimestamp L w subTree subKey subExpected).world self key g.timestamp)
        else []) ++
    [Step.Unlock self]

/-- Steps of the callback that Tree.Restore hands to Logger.Play: the clear record assigns
`self.root` in the callback itself, the other records go through the public mutators. -/
def Tree.restoreOp.steps (L : NodeLayer N) (self : Ptr) (w : World N) (op : Op) :
    List Step :=
  if op.Put then
    if op.SubKey = none then Tree.Put.steps self
    else Tree.SubPut.steps L w self op.Key op.SubKey
  else
    if op.SubKey = none then
      if op.Clear then [Step.SetRoot self]
      else Tree.Del.steps self
    else Tree.SubDel.steps L w self op.Key op.SubKey

/-- Steps of Logger.Play with the callback of Tree.Restore, record after record. -/
def Tree.playSteps (L : NodeLayer N) (self : Ptr) : World N → List Op → List Step
  | _, [] => []
  | w, op :: ops =>
    Tree.restoreOp.steps L self w op ++ Tree.playSteps L self (Tree.restoreOp L self w op) ops

/-- Steps of Tree.Restore: the method takes no lock itself. -/
def Tree.Restore.steps (L : NodeLayer N) (w : World N) (self : Ptr) : List Step :=
  match (w.heap self).logger with
  | none => []
  | some lg => Tree.playSteps L self (w.setLogger self (some lg.Stop)) lg.ops

end Steps

namespace Model

/-- The tree of worldSub with a logger that found the single record "clear k". -/
def worldClearLog : World node := Tree.Log worldSub 0 [{ Key := keyK, Clear := true }]

/-- The empty tree with a logger that found a put, a sub-put, a sub-delete and a delete
record. -/
def worldMixedLog : World node :=
  Tree.Log worldNew 0
    [{ Key := keyK, Value := valV, Timestamp := 1, Put := true },
     { Key := keyK, SubKey := keyA, Value := valV, Timestamp := 2, Put := true },
     { Key := keyK, SubKey := keyA },
     { Key := keyK }]

end Model

end Radix

/-! ## Theorems -/

namespace Radix

open Model

section Lemmas

variable {N : Type}

@[simp] theorem setRoot_root (w : World N) (self : Ptr) (r : N) :
    ((w.setRoot self r).heap self).root = r := by
  simp [World.setRoot]

@[simp] theorem setRoot_logger (w : World N) (self p : Ptr) (r : N) :
    ((w.setRoot self r).heap p).logger = (w.heap p).logger := by
  by_cases h : p = self
  · subst h; simp [World.setRoot]
  · simp [World.setRoot, Function.update_noteq h]

@[simp] theorem setLogger_root (w : World N) (self p : Ptr) (lg : Option Logger) :
    ((w.setLogger self lg).heap p).root = (w.heap p).root := by
  by_cases h : p = self
  · subst h; simp [World.setLogger]
  · simp [World.setLogger, Function.update_noteq h]

@[simp] theorem tick_heap (w : World N) : w.tick.heap = w.heap := rfl

@[simp] theorem log_root (w : World N) (self p : Ptr) (op : Op) :
    ((Tree.log w self op).heap p).root = (w.heap p).root := by
  unfold Tree.log
  split
  · rfl
  · split <;> simp

end Lemmas

/-! The concrete scenarios of the specification, evaluated on the concrete node layer. -/

/-- Scenario: after Put("k", "v", 5), a Put("k", "x", 3) with the smaller timestamp leaves
the value in place. -/
theorem model_older_put_loses :
    Tree.Get layer
      (Tree.Put layer (Tree.Put layer worldNew 0 keyK valV 5).world 0 keyK valX 3).world 0
      keyK = { bValue := valV, timestamp := 5, existed := true } := by
  decide

/-- Scenario: after Put("k", "v", 5) and FakeDel("k", 10) the key is a tombstone that counts
in the size and not in the real size; a Put at timestamp 4 does not revive it, a Put at
timestamp 11 does. -/
theorem model_tombstone_dominates :
    (Tree.Get layer
        (Tree.FakeDel layer (Tree.Put layer worldNew 0 keyK valV 5).world 0 keyK 10).world 0
        keyK).existed = false ∧
      Tree.Size layer
        (Tree.FakeDel layer (Tree.Put layer worldNew 0 keyK valV 5).world 0 keyK 10).world 0
        = 1 ∧
      Tree.RealSize layer
        (Tree.FakeDel layer (Tree.Put layer worldNew 0 keyK valV 5).world 0 keyK 10).world 0
        = 0 ∧
      (Tree.Get layer
        (Tree.Put layer
          (Tree.FakeDel layer (Tree.Put layer worldNew 0 keyK valV 5).world 0 keyK 10).world
          0 keyK valX 4).world 0 keyK).existed = false ∧
      Tree.Get layer
        (Tree.Put layer
          (Tree.FakeDel layer (Tree.Put layer worldNew 0 keyK valV 5).world 0 keyK 10).world
          0 keyK valX 11).world 0 keyK = { bValue := valX, timestamp := 11, existed := true } := by
  decide

/-- Scenario: SubPut under two outer keys of an empty tree yields two sub-tree slots, each
sub-tree of size 1. -/
theorem model_two_subtrees :
    layer.treeSize
        ((Tree.SubPut layer (Tree.SubPut layer worldNew 0 keyA keyK valV 1).world 0 keyB keyK
          valV 1).world.heap 0).root = 2 ∧
      Tree.Size layer
        (Tree.SubPut layer (Tree.SubPut layer worldNew 0 keyA keyK valV 1).world 0 keyB keyK
          valV 1).world 1 = 1 ∧
      Tree.Size layer
        (Tree.SubPut layer (Tree.SubPut layer worldNew 0 keyA keyK valV 1).world 0 keyB keyK
          valV 1).world 2 = 1 := by
  decide

/-- Claim C1: Tree.PutTimestamp returns true if and only if the timestamp that the node-layer
get reports for the key on the current root equals `expected`, and so does
Tree.DelTimestamp. -/
theorem timestamp_mutators_succeed_iff_expected {N : Type} (L : NodeLayer N) (w : World N)
    (self : Ptr) (key : List Nibble) (bValue : Bytes) (present : Bool)
    (expected timestamp : Int) :
    ((Tree.PutTimestamp L w self key bValue present expected timestamp).result = true ↔
        (L.get (w.heap self).root key).timestamp = expected) ∧
      ((Tree.DelTimestamp L w self key expected).result = true ↔
        (L.get (w.heap self).root key).timestamp = expected) := by
  constructor
  · unfold Tree.PutTimestamp Tree.putTimestamp
    by_cases h : (L.get (w.heap self).root key).timestamp = expected <;> simp [h]
  · unfold Tree.DelTimestamp Tree.delTimestamp
    by_cases h : (L.get (w.heap self).root key).timestamp = expected <;> simp [h]

/-- Claim C2: a PutTimestamp or DelTimestamp call whose expected timestamp differs from the
stored timestamp of the key returns false and changes nothing: the state is the one before the
call, in particular the root of the tree is the same node and its logger holds the same
records. -/
theorem timestamp_mismatch_changes_nothing {N : Type} (L : NodeLayer N) (w : World N)
    (self : Ptr) (key : List Nibble) (bValue : Bytes) (present : Bool)
    (expected timestamp : Int)
    (h : (L.get (w.heap self).root key).timestamp ≠ expected) :
    ((Tree.PutTimestamp L w self key bValue present expected timestamp).result = false ∧
        (Tree.PutTimestamp L w self key bValue present expected timestamp).world = w ∧
        ((Tree.PutTimestamp L w self key bValue present expected timestamp).world.heap
          self).root = (w.heap self).root ∧
        ((Tree.PutTimestamp L w self key bValue present expected timestamp).world.heap
          self).logger = (w.heap self).logger) ∧
      ((Tree.DelTimestamp L w self key expected).result = false ∧
        (Tree.DelTimestamp L w self key expected).world = w ∧
        ((Tree.DelTimestamp L w self key expected).world.heap self).root =
          (w.heap self).root ∧
        ((Tree.DelTimestamp L w self key expected).world.heap self).logger =
          (w.heap self).logger) := by
  constructor
  · unfold Tree.PutTimestamp Tree.putTimestamp
    simp [h]
  · unfold Tree.DelTimestamp Tree.delTimestamp
    simp [h]

/-- Witness of claim C2: on an empty tree with a recording logger the key "k" has stored
timestamp 0, and a call that expects 7 returns false and leaves the state as it was. -/
theorem timestamp_mismatch_changes_nothing_witness :
    (layer.get ((Tree.Log worldNew 0 []).heap 0).root (rip keyK)).timestamp ≠ 7 ∧
      (((Tree.PutTimestamp layer (Tree.Log worldNew 0 []) 0 (rip keyK) valV true 7 9).result
            = false ∧
          (Tree.PutTimestamp layer (Tree.Log worldNew 0 []) 0 (rip keyK) valV true 7 9).world
            = Tree.Log worldNew 0 [] ∧
          ((Tree.PutTimestamp layer (Tree.Log worldNew 0 []) 0 (rip keyK) valV true 7
            9).world.heap 0).root = ((Tree.Log worldNew 0 []).heap 0).root ∧
          ((Tree.PutTimestamp layer (Tree.Log worldNew 0 []) 0 (rip keyK) valV true 7
            9).world.heap 0).logger = ((Tree.Log worldNew 0 []).heap 0).logger) ∧
        ((Tree.DelTimestamp layer (Tree.Log worldNew 0 []) 0 (rip keyK) 7).result = false ∧
          (Tree.DelTimestamp layer (Tree.Log worldNew 0 []) 0 (rip keyK) 7).world
            = Tree.Log worldNew 0 [] ∧
          ((Tree.DelTimestamp layer (Tree.Log worldNew 0 []) 0 (rip keyK) 7).world.heap
            0).root = ((Tree.Log worldNew 0 []).heap 0).root ∧
          ((Tree.DelTimestamp layer (Tree.Log worldNew 0 []) 0 (rip keyK) 7).world.heap
            0).logger = ((Tree.Log worldNew 0 []).heap 0).logger)) :=
  ⟨by decide,
    timestamp_mismatch_changes_nothing layer (Tree.Log worldNew 0 []) 0 (rip keyK) valV true
      7 9 (by decide)⟩

/-- Claim C3, at the failing input: on the empty tree the outer key "k" has no sub-tree, so
the stored timestamp of the sub-key "a" counts as 0; Tree.SubPutTimestamp with subExpected 5
nevertheless returns true and stores the sub-key under timestamp 9, while the same call on the
sub-tree it created, where the sub-key "b" is not stored either, returns false. -/
theorem subPutTimestamp_without_subtree_ignores_expected :
    (layer.get (worldNew.heap 0).root (rip keyK)).tree = none ∧
      (Tree.SubPutTimestamp layer worldNew 0 (rip keyK) (rip keyA) valV true 5 9).result
        = true ∧
      (layer.get ((Tree.SubPutTimestamp layer worldNew 0 (rip keyK) (rip keyA) valV true 5
        9).world.heap 0).root (rip keyK)).tree = some 1 ∧
      Tree.GetTimestamp layer
        (Tree.SubPutTimestamp layer worldNew 0 (rip keyK) (rip keyA) valV true 5 9).world 1
        (rip keyA) = { bValue := valV, timestamp := 9, existed := true } ∧
      (Tree.SubPutTimestamp layer
        (Tree.SubPutTimestamp layer worldNew 0 (rip keyK) (rip keyA) valV true 5 9).world 0
        (rip keyK) (rip keyB) valV true 5 9).result = false := by
  decide

/-- Claim C4, at the failing input: the key "k" holds a sub-tree with the single sub-key "a";
Tree.SubDel("k", "a") empties the sub-tree, and afterwards the node get for "k" still reports
the sub-tree, because the outer delete went to the byte slot; Tree.SubDelTimestamp on the same
state does remove the sub-tree slot. -/
theorem subDel_keeps_emptied_subtree :
    (layer.get (worldSub.heap 0).root (rip keyK)).tree = some 1 ∧
      (Tree.SubDel layer worldSub 0 keyK keyA).existed = true ∧
      Tree.RealSize layer (Tree.SubDel layer worldSub 0 keyK keyA).world 1 = 0 ∧
      Tree.Size layer (Tree.SubDel layer worldSub 0 keyK keyA).world 1 = 0 ∧
      layer.get ((Tree.SubDel layer worldSub 0 keyK keyA).world.heap 0).root (rip keyK) =
        { bytes := none, tree := some 1, timestamp := 0, existed := treeValue } ∧
      layer.get ((Tree.SubDelTimestamp layer worldSub 0 (rip keyK) (rip keyA) 1).world.heap
        0).root (rip keyK) = { bytes := none, tree := none, timestamp := 0, existed := 0 } := by
  decide

/-- Claim C5, at the failing input: the key "k" holds the byte value "x" and a sub-tree with
the single sub-key "a"; Tree.SubDel("k", "a") removes the byte value stored under "k". -/
theorem subDel_removes_outer_byte_value :
    Tree.Get layer worldBoth 0 keyK = { bValue := valX, timestamp := 5, existed := true } ∧
      (layer.get (worldBoth.heap 0).root (rip keyK)).tree = some 1 ∧
      Tree.Get layer (Tree.SubDel layer worldBoth 0 keyK keyA).world 0 keyK =
        { bValue := none, timestamp := 5, existed := false } := by
  decide

/-- Claim C6: whenever SubPut, SubFakeDel, SubClear or a SubDel that leaves the sub-tree
non-empty re-inserts the sub-tree reference into the outer tree, the new outer root is the
result of the node insert of a node for the outer key that carries the sub-tree under the
use mask treeValue and under the timestamp that the node get reported for the outer key at
the start of the call; in particular SubPut writes a freshly created sub-tree under the outer
timestamp 0 when get reported 0, whatever the timestamp of the sub-key write is. -/
theorem sub_mutators_reinsert_under_outer_timestamp {N : Type} (L : NodeLayer N)
    (w : World N) (self : Ptr) (key subKey bValue : Bytes) (timestamp : Int) :
    ((L.get (w.heap self).root (rip key)).tree = none ∨
        (L.get (w.heap self).root (rip key)).existed &&& treeValue = 0 →
      ((Tree.SubPut L w self key subKey bValue timestamp).world.heap self).root =
        outerInsert L (Tree.newTreeWith L w (rip subKey) bValue timestamp).1 self (rip key)
          (Tree.newTreeWith L w (rip subKey) bValue timestamp).2
          (L.get (w.heap self).root (rip key)).timestamp) ∧
    ((L.get (w.heap self).root (rip key)).tree = none ∨
        (L.get (w.heap self).root (rip key)).existed &&& treeValue = 0 →
        (L.get (w.heap self).root (rip key)).timestamp = 0 →
      ((Tree.SubPut L w self key subKey bValue timestamp).world.heap self).root =
        outerInsert L (Tree.newTreeWith L w (rip subKey) bValue timestamp).1 self (rip key)
          (Tree.newTreeWith L w (rip subKey) bValue timestamp).2 0) ∧
    (∀ subTree : Ptr, (L.get (w.heap self).root (rip key)).tree = some subTree →
        (L.get (w.heap self).root (rip key)).existed &&& treeValue ≠ 0 →
      ((Tree.SubPut L w self key subKey bValue timestamp).world.heap self).root =
        outerInsert L (Tree.Put L w subTree subKey bValue timestamp).world self (rip key)
          subTree (L.get (w.heap self).root (rip key)).timestamp) ∧
    (∀ subTree : Ptr, (L.get (w.heap self).root (rip key)).tree = some subTree →
        (L.get (w.heap self).root (rip key)).existed &&& treeValue ≠ 0 →
      ((Tree.SubFakeDel L w self key subKey timestamp).world.heap self).root =
        outerInsert L (Tree.FakeDel L w subTree subKey timestamp).world self (rip key)
          subTree (L.get (w.heap self).root (rip key)).timestamp) ∧
    (∀ subTree : Ptr, (L.get (w.heap self).root (rip key)).tree = some subTree →
        (L.get (w.heap self).root (rip key)).existed &&& treeValue ≠ 0 →
      ((Tree.SubClear L w self key timestamp).1.heap self).root =
        outerInsert L (Tree.Clear L w subTree timestamp).1 self (rip key)
          subTree (L.get (w.heap self).root (rip key)).timestamp) ∧
    (∀ subTree : Ptr, (L.get (w.heap self).root (rip key)).tree = some subTree →
        (L.get (w.heap self).root (rip key)).existed &&& treeValue ≠ 0 →
        Tree.RealSize L (Tree.Del L w subTree subKey).world subTree ≠ 0 →
      ((Tree.SubDel L w self key subKey).world.heap self).root =
        outerInsert L (Tree.Del L w subTree subKey).world self (rip key)
          subTree (L.get (w.heap self).root (rip key)).timestamp) := by
  have fresh : (L.get (w.heap self).root (rip key)).tree = none ∨
        (L.get (w.heap self).root (rip key)).existed &&& treeValue = 0 →
      ((Tree.SubPut L w self key subKey bValue timestamp).world.heap self).root =
        outerInsert L (Tree.newTreeWith L w (rip subKey) bValue timestamp).1 self (rip key)
          (Tree.newTreeWith L w (rip subKey) bValue timestamp).2
          (L.get (w.heap self).root (rip key)).timestamp := by
    intro h
    unfold Tree.SubPut
    rcases h with h | h
    · simp [h, Tree.put, outerInsert]
    · cases hg : (L.get (w.heap self).root (rip key)).tree <;>
        simp [h, hg, Tree.put, outerInsert]
  refine ⟨fresh, ?_, ?_, ?_, ?_, ?_⟩
  · intro h hz
    rw [← hz]
    exact fresh h
  · intro st hg hm
    unfold Tree.SubPut
    simp [hg, hm, Tree.put, outerInsert]
  · intro st hg hm
    unfold Tree.SubFakeDel
    simp only [hg]
    simp [hm, Tree.put, outerInsert]
    split <;> simp
  · intro st hg hm
    unfold Tree.SubClear
    simp only [hg]
    simp [hm, Tree.put, outerInsert]
    split <;> simp
  · intro st hg hm hs
    unfold Tree.SubDel
    simp only [hg]
    simp [hm, hs, Tree.put, outerInsert]
    split <;> simp

/-- Witness of claim C6: SubPut("k", "a", "v", 7) on the empty tree writes the new sub-tree
under outer timestamp 0; SubPut, SubFakeDel and SubClear on the tree whose key "k" holds a
sub-tree, and SubDel("k", "a") on the tree whose sub-tree holds "a" and "b", re-insert it
under the timestamp 0 that get reported. -/
theorem sub_mutators_reinsert_under_outer_timestamp_witness :
    (((layer.get (worldNew.heap 0).root (rip keyK)).tree = none ∨
        (layer.get (worldNew.heap 0).root (rip keyK)).existed &&& treeValue = 0) ∧
      (layer.get (worldNew.heap 0).root (rip keyK)).timestamp = 0 ∧
      ((Tree.SubPut layer worldNew 0 keyK keyA valV 7).world.heap 0).root =
        outerInsert layer (Tree.newTreeWith layer worldNew (rip keyA) valV 7).1 0 (rip keyK)
          (Tree.newTreeWith layer worldNew (rip keyA) valV 7).2 0) ∧
    ((layer.get (worldSub.heap 0).root (rip keyK)).tree = some 1 ∧
      (layer.get (worldSub.heap 0).root (rip keyK)).existed &&& treeValue ≠ 0 ∧
      ((Tree.SubPut layer worldSub 0 keyK keyB valX 2).world.heap 0).root =
        outerInsert layer (Tree.Put layer worldSub 1 keyB valX 2).world 0 (rip keyK)
          1 (layer.get (worldSub.heap 0).root (rip keyK)).timestamp) ∧
    (((Tree.SubFakeDel layer worldSub 0 keyK keyA 3).world.heap 0).root =
        outerInsert layer (Tree.FakeDel layer worldSub 1 keyA 3).world 0 (rip keyK)
          1 (layer.get (worldSub.heap 0).root (rip keyK)).timestamp) ∧
    (((Tree.SubClear layer worldSub 0 keyK 3).1.heap 0).root =
        outerInsert layer (Tree.Clear layer worldSub 1 3).1 0 (rip keyK)
          1 (layer.get (worldSub.heap 0).root (rip keyK)).timestamp) ∧
    (Tree.RealSize layer (Tree.Del layer worldSub2 1 keyA).world 1 ≠ 0 ∧
      ((Tree.SubDel layer worldSub2 0 keyK keyA).world.heap 0).root =
        outerInsert layer (Tree.Del layer worldSub2 1 keyA).world 0 (rip keyK)
          1 (layer.get (worldSub2.heap 0).root (rip keyK)).timestamp) :=
  ⟨⟨by decide, by decide,
      (sub_mutators_reinsert_under_outer_timestamp layer worldNew 0 keyK keyA valV 7).2.1
        (by decide) (by decide)⟩,
    ⟨by decide, by decide,
      (sub_mutators_reinsert_under_outer_timestamp layer worldSub 0 keyK keyB valX 2).2.2.1 1
        (by decide) (by decide)⟩,
    (sub_mutators_reinsert_under_outer_timestamp layer worldSub 0 keyK keyA valV 3).2.2.2.1 1
      (by decide) (by decide),
    (sub_mutators_reinsert_under_outer_timestamp layer worldSub 0 keyK keyA valV 3).2.2.2.2.1 1
      (by decide) (by decide),
    ⟨by decide,
      (sub_mutators_reinsert_under_outer_timestamp layer worldSub2 0 keyK keyA valV 3).2.2.2.2.2
        1 (by decide) (by decide) (by decide)⟩⟩

/-- Claim C7, at the failing input: the key "k" holds a sub-tree and no byte value, so the mask
that the node insert returns for Put("k", "x", 5) has only the sub-tree bit set; Tree.Put
nevertheless returns existed = true, while Get, Del and FakeDel return existed = false for the
same key. -/
theorem put_reports_existed_for_subtree_only_key :
    (Tree.put layer worldSub 0 (rip keyK) valX none byteValue 5).existed = treeValue ∧
      treeValue &&& byteValue = 0 ∧
      (Tree.Put layer worldSub 0 keyK valX 5).existed = true ∧
      (Tree.Get layer worldSub 0 keyK).existed = false ∧
      (Tree.Del layer worldSub 0 keyK).existed = false ∧
      (Tree.FakeDel layer worldSub 0 keyK 5).existed = false := by
  decide

/-- Counterexample to claim C8: the tree holds "k" with the live value "v" and its log holds
the record "delete k"; after Restore the key is physically gone (no byte slot, no cell),
whereas a fakeDel stamped with the current clock keeps the key as a tombstone, and the two
roots differ. -/
theorem restore_delete_record_removes_key :
    Tree.Get layer worldDelLog 0 keyK = { bValue := valV, timestamp := 1, existed := true } ∧
      (Tree.Restore layer worldDelLog 0).map
          (fun w => (layer.byteSize (w.heap 0).root, (w.heap 0).root.cells)) = some (0, []) ∧
      layer.byteSize (layer.fakeDel worldDelLog.heap (worldDelLog.heap 0).root [] (rip keyK)
        byteValue worldDelLog.ContinuousTime worldDelLog.ContinuousTime).result = 1 ∧
      (Tree.Restore layer worldDelLog 0).map (fun w => (w.heap 0).root) ≠
        some (layer.fakeDel worldDelLog.heap (worldDelLog.heap 0).root [] (rip keyK)
          byteValue worldDelLog.ContinuousTime worldDelLog.ContinuousTime).result := by
  decide

/-- Claim C8, amended: during Tree.Restore a delete record without the clear flag is applied
through Tree.Del when it has no sub-key, so that the new root is the result of the node del
with the use mask byteValue, a physical removal, and through Tree.SubDel when it has a
sub-key; a log that holds one flat delete record restores to that root. -/
theorem restore_applies_delete_records_through_del {N : Type} (L : NodeLayer N)
    (w : World N) (self : Ptr) (op : Op) (hput : op.Put = false) (hclear : op.Clear = false) :
    (op.SubKey = none →
        Tree.restoreOp L self w op = (Tree.Del L w self op.Key).world ∧
        ((Tree.restoreOp L self w op).heap self).root =
          (L.del w.heap (w.heap self).root [] (rip op.Key) byteValue w.ContinuousTime).result) ∧
      (op.SubKey ≠ none →
        Tree.restoreOp L self w op = (Tree.SubDel L w self op.Key op.SubKey).world) ∧
      (∀ lg : Logger, (w.heap self).logger = some lg → lg.ops = [op] → op.SubKey = none →
        ∃ w2 : World N, Tree.Restore L w self = some w2 ∧
          (w2.heap self).root =
            (L.del (w.setLogger self (some lg.Stop)).heap (w.heap self).root [] (rip op.Key)
              byteValue w.ContinuousTime).result) := by
  have flat : ∀ v : World N, op.SubKey = none →
      Tree.restoreOp L self v op = (Tree.Del L v self op.Key).world ∧
      ((Tree.restoreOp L self v op).heap self).root =
        (L.del v.heap (v.heap self).root [] (rip op.Key) byteValue v.ContinuousTime).result := by
    intro v hs
    have h1 : Tree.restoreOp L self v op = (Tree.Del L v self op.Key).world := by
      simp [Tree.restoreOp, hput, hclear, hs]
    refine ⟨h1, ?_⟩
    rw [h1]
    unfold Tree.Del Tree.del
    dsimp only
    split <;> simp
  refine ⟨flat w, ?_, ?_⟩
  · intro hs
    simp [Tree.restoreOp, hput, hs]
  · intro lg hlg hops hs
    simp only [Tree.Restore, hlg]
    refine ⟨_, rfl, ?_⟩
    simp only [Logger.Play, hops, List.foldl_cons, List.foldl_nil, setLogger_root]
    rw [(flat _ hs).2]
    simp [World.ContinuousTime, World.setLogger]

/-- Witness of the amended claim C8: the record "delete k" replays as Tree.Del and the record
"delete a under k" replays as Tree.SubDel. -/
theorem restore_applies_delete_records_through_del_witness :
    (Tree.restoreOp layer 0 worldPut { Key := keyK } =
        (Tree.Del layer worldPut 0 keyK).world ∧
      ((Tree.restoreOp layer 0 worldPut { Key := keyK }).heap 0).root =
        (layer.del worldPut.heap (worldPut.heap 0).root [] (rip keyK) byteValue
          worldPut.ContinuousTime).result) ∧
      Tree.restoreOp layer 0 worldSub { Key := keyK, SubKey := keyA } =
        (Tree.SubDel layer worldSub 0 keyK keyA).world :=
  ⟨(restore_applies_delete_records_through_del layer worldPut 0 { Key := keyK } rfl rfl).1 rfl,
    (restore_applies_delete_records_through_del layer worldSub 0
      { Key := keyK, SubKey := keyA } rfl rfl).2.1 (by decide)⟩

/-- Claim C9, at the failing input: the calls Put("k", "v", 1), FakeDel("k", 2) on the empty
tree leave the tombstone of "k"; with a recording logger they emit a put record and a delete
record; replaying these two records into an empty tree removes "k" physically, so the replayed
tree has another root hash and another size than the tree built directly. -/
theorem replay_of_fakeDel_differs_from_direct_tree :
    emitted layer 0 worldNew putThenFakeDel =
        [{ Key := keyK, Value := valV, Timestamp := 1, Put := true }, { Key := keyK }] ∧
      Tree.Hash layer (runAll layer 0 worldNew putThenFakeDel) 0 =
        some [2, 6, 11, 1, 0, 4, 0, 0] ∧
      (replay layer 0 worldNew (emitted layer 0 worldNew putThenFakeDel)).map
          (fun w => Tree.Hash layer w 0) = some (some []) ∧
      (replay layer 0 worldNew (emitted layer 0 worldNew putThenFakeDel)).map
          (fun w => Tree.Hash layer w 0) ≠
        some (Tree.Hash layer (runAll layer 0 worldNew putThenFakeDel) 0) ∧
      Tree.Size layer (runAll layer 0 worldNew putThenFakeDel) 0 = 1 ∧
      (replay layer 0 worldNew (emitted layer 0 worldNew putThenFakeDel)).map
          (fun w => Tree.Size layer w 0) = some 0 := by
  decide

end Radix

namespace Client

open Radix

/-- The loop of Conn.Get, started on the item of the reply `c` and run over replies without
failure, selects the item of the earliest reply of `c :: rs` with the greatest timestamp. -/
theorem latest_selects_earliest_greatest (rs : List Reply) :
    ∀ (c : Reply), (∀ r ∈ rs, r.failed = false) →
      ∃ (i : Nat) (x : Reply), (c :: rs)[i]? = some x ∧
        Conn.latest (some c.item) rs = some (some x.item) ∧
        (∀ (j : Nat) (y : Reply), (c :: rs)[j]? = some y →
          y.item.Timestamp ≤ x.item.Timestamp) ∧
        (∀ (j : Nat) (y : Reply), j < i → (c :: rs)[j]? = some y →
          y.item.Timestamp < x.item.Timestamp) := by
  induction rs with
  | nil =>
    intro c _
    refine ⟨0, c, by simp, by simp [Conn.latest], ?_, ?_⟩
    · intro j y hj
      cases j with
      | zero => simp at hj; subst hj; exact le_refl _
      | succ j => simp at hj
    · intro j y hj; omega
  | cons r rs ih =>
    intro c hok
    have hr : r.failed = false := hok r (by simp)
    have hrest : ∀ q ∈ rs, q.failed = false := fun q hq => hok q (by simp [hq])
    by_cases hlt : c.item.Timestamp < r.item.Timestamp
    · obtain ⟨i, x, hx, hlat, hle, hst⟩ := ih r hrest
      have hrx : r.item.Timestamp ≤ x.item.Timestamp := hle 0 r (by simp)
      refine ⟨i + 1, x, by simpa using hx, by simp [Conn.latest, hr, hlt, hlat], ?_, ?_⟩
      · intro j y hj
        cases j with
        | zero => simp at hj; subst hj; omega
        | succ j => exact hle j y (by simpa using hj)
      · intro j y hji hj
        cases j with
        | zero => simp at hj; subst hj; omega
        | succ j => exact hst j y (by omega) (by simpa using hj)
    · obtain ⟨i, x, hx, hlat, hle, hst⟩ := ih c hrest
      have hrc : r.item.Timestamp ≤ c.item.Timestamp := not_lt.mp hlt
      cases i with
      | zero =>
        simp at hx; subst hx
        refine ⟨0, c, by simp, by simp [Conn.latest, hr, hlt, hlat], ?_, ?_⟩
        · intro j y hj
          match j with
          | 0 => simp at hj; subst hj; exact le_refl _
          | 1 => simp at hj; subst hj; exact hrc
          | j + 2 => exact hle (j + 1) y (by simpa using hj)
        · intro j y hj; omega
      | succ k =>
        have hcx : c.item.Timestamp < x.item.Timestamp := hst 0 c (by omega) (by simp)
        refine ⟨k + 2, x, by simpa using hx, by simp [Conn.latest, hr, hlt, hlat], ?_, ?_⟩
        · intro j y hj
          match j with
          | 0 => simp at hj; subst hj; omega
          | 1 => simp at hj; subst hj; omega
          | j + 2 => exact hle (j + 1) y (by simpa using hj)
        · intro j y hji hj
          match j with
          | 0 => simp at hj; subst hj; omega
          | 1 => simp at hj; subst hj; omega
          | j + 2 => exact hst (j + 1) y (by omega) (by simpa using hj)

/-- Claim C10: when the `n >= 1` fanned-out calls all complete without error, Conn.Get returns
the Value and Exists fields of a reply whose Timestamp is greater than or equal to the
Timestamp of every reply, and among the replies with the greatest timestamp it is the earliest
in fan-out order: every reply before it has a strictly smaller timestamp. -/
theorem get_returns_earliest_latest_reply (replies : List Reply) (later : List (List Reply))
    (hn : 1 ≤ replies.length) (hok : ∀ r ∈ replies, r.failed = false) :
    ∃ (i : Nat) (x : Reply), replies[i]? = some x ∧
      Conn.Get (replies :: later) = some (Outcome.value x.item.Value x.item.Exists) ∧
      (∀ (j : Nat) (y : Reply), replies[j]? = some y →
        y.item.Timestamp ≤ x.item.Timestamp) ∧
      (∀ (j : Nat) (y : Reply), j < i → replies[j]? = some y →
        y.item.Timestamp < x.item.Timestamp) := by
  cases replies with
  | nil => simp at hn
  | cons c rs =>
    have hc : c.failed = false := hok c (by simp)
    obtain ⟨i, x, hx, hlat, hle, hst⟩ :=
      latest_selects_earliest_greatest rs c (fun q hq => hok q (by simp [hq]))
    refine ⟨i, x, hx, ?_, hle, hst⟩
    simp [Conn.Get, Conn.latest, hc, hlat]

/-- Witness of claim C10: with three replies of timestamps 3, 8 and 8 Conn.Get returns the
fields of some reply that is the earliest with the greatest timestamp, and evaluation gives
the fields of the second reply. -/
theorem get_returns_earliest_latest_reply_witness :
    (1 ≤ threeReplies.length ∧ ∀ r ∈ threeReplies, r.failed = false) ∧
      (∃ (i : Nat) (x : Reply), threeReplies[i]? = some x ∧
        Conn.Get (threeReplies :: []) = some (Outcome.value x.item.Value x.item.Exists) ∧
        (∀ (j : Nat) (y : Reply), threeReplies[j]? = some y →
          y.item.Timestamp ≤ x.item.Timestamp) ∧
        (∀ (j : Nat) (y : Reply), j < i → threeReplies[j]? = some y →
          y.item.Timestamp < x.item.Timestamp)) ∧
      Conn.Get (threeReplies :: []) = some (Outcome.value (some [98]) true) :=
  ⟨⟨by decide, by decide⟩,
    get_returns_earliest_latest_reply threeReplies [] (by decide) (by decide), by decide⟩

end Client

namespace Radix

open Model

/-- Every public mutator that takes the write lock assigns the root of a tree only while the
write lock of that tree is held. -/
theorem public_mutators_assign_root_under_lock {N : Type} (L : NodeLayer N) (w : World N)
    (self : Ptr) (key subKey bValue : Bytes) (nkey nsub : List Nibble) (present : Bool)
    (expected timestamp : Int) :
    unguarded [] (Tree.Put.steps self) = [] ∧
    unguarded [] (Tree.Del.steps self) = [] ∧
    unguarded [] (Tree.FakeDel.steps self) = [] ∧
    unguarded [] (Tree.Clear.steps self) = [] ∧
    unguarded [] (Tree.PutTimestamp.steps L w self nkey expected) = [] ∧
    unguarded [] (Tree.DelTimestamp.steps L w self nkey expected) = [] ∧
    unguarded [] (Tree.SubPut.steps L w self key subKey) = [] ∧
    unguarded [] (Tree.SubDel.steps L w self key subKey) = [] ∧
    unguarded [] (Tree.SubFakeDel.steps L w self key) = [] ∧
    unguarded [] (Tree.SubClear.steps L w self key) = [] ∧
    unguarded [] (Tree.SubPutTimestamp.steps L w self nkey nsub bValue present expected
      timestamp) = [] ∧
    unguarded [] (Tree.SubDelTimestamp.steps L w self nkey nsub expected) = [] := by
  refine ⟨?_, ?_, ?_, ?_, ?_, ?_, ?_, ?_, ?_, ?_, ?_, ?_⟩
  · simp [Tree.Put.steps, Tree.put.steps, unguarded]
  · simp [Tree.Del.steps, Tree.del.steps, unguarded]
  · simp [Tree.FakeDel.steps, unguarded]
  · simp [Tree.Clear.steps, unguarded]
  · simp only [Tree.PutTimestamp.steps, Tree.putTimestamp.steps]
    split <;> simp [unguarded]
  · simp only [Tree.DelTimestamp.steps, Tree.delTimestamp.steps]
    split <;> simp [unguarded]
  · simp only [Tree.SubPut.steps, Tree.newTreeWith.steps, Tree.PutTimestamp.steps,
      Tree.putTimestamp.steps, NewTreeTimer.steps, Tree.Put.steps, Tree.put.steps]
    repeat' split
    all_goals simp [unguarded]
  · simp only [Tree.SubDel.steps, Tree.Del.steps, Tree.del.steps, Tree.put.steps]
    repeat' split
    all_goals simp [unguarded]
  · simp only [Tree.SubFakeDel.steps, Tree.FakeDel.steps, Tree.put.steps]
    repeat' split
    all_goals simp [unguarded]
  · simp only [Tree.SubClear.steps, Tree.Clear.steps, Tree.put.steps]
    repeat' split
    all_goals simp [unguarded]
  · simp only [Tree.SubPutTimestamp.steps, Tree.newTreeWith.steps, Tree.PutTimestamp.steps,
      Tree.putTimestamp.steps, NewTreeTimer.steps]
    repeat' split
    all_goals simp [unguarded]
  · simp only [Tree.SubDelTimestamp.steps, Tree.DelTimestamp.steps, Tree.delTimestamp.steps,
      Tree.putTimestamp.steps]
    repeat' split
    all_goals simp [unguarded]

/-- Claim C11: when the node get reports no sub-tree for the outer key (the sub-tree bit of
the mask is clear, or the sub-tree is nil), every sub-tree read returns its zero result:
SubGet and SubGetTimestamp return (nil, 0, false), SubSize and SubSizeBetween return 0,
SubFirst, SubLast, SubPrev, SubNext, SubIndexOf, SubReverseIndexOf, SubNextIndex and
SubPrevIndex return zero values with existed = false, the four iterators leave the state
captured by any callback as it was, so the callback is never invoked, and SubFinger returns
the empty Print. `key` is the outer key of the methods that take bytes, `nkey` of the two
methods that take nibbles. -/
theorem sub_reads_without_subtree_return_zero {N σ τ : Type} (L : NodeLayer N)
    (R : NodeReads N) (w : World N) (self : Ptr) (key subKey min max : Bytes)
    (mininc maxinc : Bool) (index : Int) (imin imax : Option Int) (nkey nsub : List Nibble)
    (f : Callback Visit σ) (s : σ) (fi : Callback IndexVisit τ) (t : τ)
    (h : (L.get (w.heap self).root (rip key)).existed &&& treeValue = 0 ∨
      (L.get (w.heap self).root (rip key)).tree = none)
    (hn : (L.get (w.heap self).root nkey).existed &&& treeValue = 0 ∨
      (L.get (w.heap self).root nkey).tree = none) :
    Tree.SubGet L w self key subKey =
      { bValue := none, timestamp := 0, existed := false } ∧
    Tree.SubGetTimestamp L w self nkey nsub =
      { bValue := none, timestamp := 0, existed := false } ∧
    Tree.SubSize L w self key = 0 ∧
    Tree.SubSizeBetween L R w self key min max mininc maxinc = 0 ∧
    Tree.SubFirst L R w self key =
      { key := none, value := none, timestamp := 0, existed := false } ∧
    Tree.SubLast L R w self key =
      { key := none, value := none, timestamp := 0, existed := false } ∧
    Tree.SubPrev L R w self key subKey =
      { key := none, value := none, timestamp := 0, existed := false } ∧
    Tree.SubNext L R w self key subKey =
      { key := none, value := none, timestamp := 0, existed := false } ∧
    Tree.SubIndexOf L R w self key subKey = { index := 0, existed := false } ∧
    Tree.SubReverseIndexOf L R w self key subKey =
      { index := 0, existed := false } ∧
    Tree.SubNextIndex L R w self key index =
      { key := none, value := none, timestamp := 0, index := 0, existed := false } ∧
    Tree.SubPrevIndex L R w self key index =
      { key := none, value := none, timestamp := 0, index := 0, existed := false } ∧
    Tree.SubEachBetween L R w self key min max mininc maxinc f s = s ∧
    Tree.SubReverseEachBetween L R w self key min max mininc maxinc f s =
      s ∧
    Tree.SubEachBetweenIndex L R w self key imin imax fi t = t ∧
    Tree.SubReverseEachBetweenIndex L R w self key imin imax fi t = t ∧
    Tree.SubFinger L R w self nkey nsub = { steps := [] } := by
  have hk : ∀ {α : Type} (z : α) (d : Ptr → α),
      (match (L.get (w.heap self).root (rip key)).tree with
        | none => z
        | some subTree =>
          if (L.get (w.heap self).root (rip key)).existed &&& treeValue ≠ 0 then d subTree
          else z) = z := by
    intro α z d
    rcases h with h | h
    · cases (L.get (w.heap self).root (rip key)).tree <;> simp [h]
    · simp [h]
  have hnk : ∀ {α : Type} (z : α) (d : Ptr → α),
      (match (L.get (w.heap self).root nkey).tree with
        | none => z
        | some subTree =>
          if (L.get (w.heap self).root nkey).existed &&& treeValue ≠ 0 then d subTree
          else z) = z := by
    intro α z d
    rcases hn with h | h
    · cases (L.get (w.heap self).root nkey).tree <;> simp [h]
    · simp [h]
  refine ⟨?_, ?_, ?_, ?_, ?_, ?_, ?_, ?_, ?_, ?_, ?_, ?_, ?_, ?_, ?_, ?_, ?_⟩
  · simp only [Tree.SubGet, hk, Got.zero]
  · simp only [Tree.SubGetTimestamp, hnk, Got.zero]
  · simp only [Tree.SubSize, hk]
  · simp only [Tree.SubSizeBetween, hk]
  · simp only [Tree.SubFirst, hk, Found.zero]
  · simp only [Tree.SubLast, hk, Found.zero]
  · simp only [Tree.SubPrev, hk, Found.zero]
  · simp only [Tree.SubNext, hk, Found.zero]
  · simp only [Tree.SubIndexOf, hk, Indexed.zero]
  · simp only [Tree.SubReverseIndexOf, hk, Indexed.zero]
  · simp only [Tree.SubNextIndex, hk, FoundAt.zero]
  · simp only [Tree.SubPrevIndex, hk, FoundAt.zero]
  · simp only [Tree.SubEachBetween, hk]
  · simp only [Tree.SubReverseEachBetween, hk]
  · simp only [Tree.SubEachBetweenIndex, hk]
  · simp only [Tree.SubReverseEachBetweenIndex, hk]
  · simp only [Tree.SubFinger, hnk]

/-- Witness of claim C11: in the tree that holds "k" with a byte value and no sub-tree, the
sub-tree reads under "k" return their zero results and the recording callbacks have recorded
no call. -/
theorem sub_reads_without_subtree_return_zero_witness :
    ((layer.get (worldPut.heap 0).root (rip keyK)).existed &&& treeValue = 0 ∨
        (layer.get (worldPut.heap 0).root (rip keyK)).tree = none) ∧
      Tree.Get layer worldPut 0 keyK = { bValue := valV, timestamp := 1, existed := true } ∧
      Tree.SubGet layer worldPut 0 keyK keyA =
        { bValue := none, timestamp := 0, existed := false } ∧
      Tree.SubGetTimestamp layer worldPut 0 (rip keyK) (rip keyA) =
        { bValue := none, timestamp := 0, existed := false } ∧
      Tree.SubSize layer worldPut 0 keyK = 0 ∧
      Tree.SubSizeBetween layer reads worldPut 0 keyK keyA keyB true true = 0 ∧
      Tree.SubFirst layer reads worldPut 0 keyK =
        { key := none, value := none, timestamp := 0, existed := false } ∧
      Tree.SubLast layer reads worldPut 0 keyK =
        { key := none, value := none, timestamp := 0, existed := false } ∧
      Tree.SubPrev layer reads worldPut 0 keyK keyA =
        { key := none, value := none, timestamp := 0, existed := false } ∧
      Tree.SubNext layer reads worldPut 0 keyK keyA =
        { key := none, value := none, timestamp := 0, existed := false } ∧
      Tree.SubIndexOf layer reads worldPut 0 keyK keyA = { index := 0, existed := false } ∧
      Tree.SubReverseIndexOf layer reads worldPut 0 keyK keyA =
        { index := 0, existed := false } ∧
      Tree.SubNextIndex layer reads worldPut 0 keyK 0 =
        { key := none, value := none, timestamp := 0, index := 0, existed := false } ∧
      Tree.SubPrevIndex layer reads worldPut 0 keyK 0 =
        { key := none, value := none, timestamp := 0, index := 0, existed := false } ∧
      Tree.SubEachBetween layer reads worldPut 0 keyK keyA keyB true true record
        ([] : List Visit) = ([] : List Visit) ∧
      Tree.SubReverseEachBetween layer reads worldPut 0 keyK keyA keyB true true record
        ([] : List Visit) = ([] : List Visit) ∧
      Tree.SubEachBetweenIndex layer reads worldPut 0 keyK none (some 3) record
        ([] : List IndexVisit) = ([] : List IndexVisit) ∧
      Tree.SubReverseEachBetweenIndex layer reads worldPut 0 keyK none (some 3) record
        ([] : List IndexVisit) = ([] : List IndexVisit) ∧
      Tree.SubFinger layer reads worldPut 0 (rip keyK) (rip keyA) = { steps := [] } :=
  ⟨by decide, by decide,
    sub_reads_without_subtree_return_zero layer reads worldPut 0 keyK keyA keyA keyB true true
      0 none (some 3) (rip keyK) (rip keyA) record [] record [] (by decide) (by decide)⟩

/-- Claim C12, at the failing input: the key "k" holds a sub-tree and the log holds the record
"clear k"; Tree.Restore takes no lock, and for this record its callback assigns `self.root`
itself: the only step of the call is an assignment to the root of the tree while its write
lock is not held, and that assignment replaced the root, since "k" no longer has its sub-tree.
A log of put, sub-put, sub-delete and delete records is replayed through the public mutators,
with every assignment under the lock. -/
theorem restore_clear_record_assigns_root_without_lock :
    Tree.Restore.steps layer worldClearLog 0 = [Step.SetRoot 0] ∧
      unguarded [] (Tree.Restore.steps layer worldClearLog 0) = [0] ∧
      (layer.get (worldClearLog.heap 0).root (rip keyK)).tree = some 1 ∧
      (Tree.Restore layer worldClearLog 0).map
          (fun w => (layer.get (w.heap 0).root (rip keyK)).tree) = some none ∧
      (Tree.Restore layer worldClearLog 0).map (fun w => (w.heap 0).root) ≠
        some (worldClearLog.heap 0).root ∧
      unguarded [] (Tree.Restore.steps layer worldMixedLog 0) = [] := by
  decide

/-- Claim C13, at the failing input: on the empty tree the outer key "k" has no sub-tree;
Tree.SubPutTimestamp with present = false creates the sub-tree and stores the sub-key "a" with
the byte-value bit set, a live value, while Tree.PutTimestamp with the same arguments stores a
tombstone (use mask 0), and so does SubPutTimestamp when the sub-tree exists. -/
theorem subPutTimestamp_without_subtree_ignores_present :
    (layer.get (worldNew.heap 0).root (rip keyK)).tree = none ∧
      (Tree.SubPutTimestamp layer worldNew 0 (rip keyK) (rip keyA) valV false 0 9).result
        = true ∧
      (layer.get ((Tree.SubPutTimestamp layer worldNew 0 (rip keyK) (rip keyA) valV false 0
        9).world.heap 0).root (rip keyK)).tree = some 1 ∧
      layer.get ((Tree.SubPutTimestamp layer worldNew 0 (rip keyK) (rip keyA) valV false 0
        9).world.heap 1).root (rip keyA) =
        { bytes := valV, tree := none, timestamp := 9, existed := byteValue } ∧
      Tree.GetTimestamp layer
        (Tree.SubPutTimestamp layer worldNew 0 (rip keyK) (rip keyA) valV false 0 9).world 1
        (rip keyA) = { bValue := valV, timestamp := 9, existed := true } ∧
      layer.get ((Tree.PutTimestamp layer worldNew 0 (rip keyA) valV false 0 9).world.heap
        0).root (rip keyA) = { bytes := valV, tree := none, timestamp := 9, existed := 0 } ∧
      (layer.get (worldSub.heap 0).root (rip keyK)).tree = some 1 ∧
      layer.get ((Tree.SubPutTimestamp layer worldSub 0 (rip keyK) (rip keyB) valV false 0
        9).world.heap 1).root (rip keyB) =
        { bytes := valV, tree := none, timestamp := 9, existed := 0 } := by
  decide

end Radix

namespace Client

open Radix

/-- Claim C14: when every fanned-out call completes without error, the loop of Conn.Get
selects an item, and Conn.Get returns the Value and Exists fields of it, if and only if there
is at least one call, that is Redundancy() >= 1; with Redundancy() = 0 the loop selects no
item and Conn.Get ends in the nil dereference of the final read. -/
theorem get_selects_item_iff_redundancy_positive (replies : List Reply)
    (later : List (List Reply)) (hok : ∀ r ∈ replies, r.failed = false) :
    ((∃ it : Item, Conn.latest none replies = some (some it)) ↔ 1 ≤ replies.length) ∧
      ((∃ (v : Bytes) (e : Bool), Conn.Get (replies :: later) = some (Outcome.value v e)) ↔
        1 ≤ replies.length) ∧
      (replies.length = 0 →
        Conn.latest none replies = some none ∧
        Conn.Get (replies :: later) = some Outcome.nilDeref) := by
  cases replies with
  | nil => simp [Conn.latest, Conn.Get]
  | cons c rs =>
    have hc : c.failed = false := hok c (by simp)
    obtain ⟨i, x, _, hlat, _, _⟩ :=
      latest_selects_earliest_greatest rs c (fun q hq => hok q (by simp [hq]))
    refine ⟨?_, ?_, ?_⟩
    · simp [Conn.latest, hc, hlat]
    · simp [Conn.Get, Conn.latest, hc, hlat]
    · simp

/-- Witness of claim C14: with the three replies an item is selected and its fields are
returned; with no reply, Redundancy() = 0, no item is selected and the final read
dereferences nil. -/
theorem get_selects_item_iff_redundancy_positive_witness :
    (∀ r ∈ threeReplies, r.failed = false) ∧
      (((∃ it : Item, Conn.latest none threeReplies = some (some it)) ↔
          1 ≤ threeReplies.length) ∧
        ((∃ (v : Bytes) (e : Bool),
            Conn.Get (threeReplies :: []) = some (Outcome.value v e)) ↔
          1 ≤ threeReplies.length) ∧
        (threeReplies.length = 0 →
          Conn.latest none threeReplies = some none ∧
          Conn.Get (threeReplies :: []) = some Outcome.nilDeref)) ∧
      Conn.latest none threeReplies =
        some (some { Key := some [107], Value := some [98], Timestamp := 8, Exists := true }) ∧
      (Conn.latest none ([] : List Reply) = some none ∧
        Conn.Get (([] : List Reply) :: []) = some Outcome.nilDeref) :=
  ⟨by decide,
    get_selects_item_iff_redundancy_positive threeReplies [] (by decide), by decide,
    (get_selects_item_iff_redundancy_positive [] [] (by simp)).2.2 rfl⟩

end Client
